import Mathlib

/-!
Verification model of wiretap/file_wrappers.c (seekable decompressing
reader).

Shallow embedding notes:

* Build configuration modelled: HAVE_ZLIB, Z_BLOCK and HAVE_INFLATEPRIME
  are defined; HAVE_ZSTD and USE_LZ4 are not.  The zstd/lz4 magic checks
  therefore take the source's `#else` branches and fail with
  WTAP_ERR_DECOMPRESSION_NOT_SUPPORTED, exactly as the C does in such a
  build.
* The zlib inflate primitive itself is out of scope (the spec treats the
  decompression backends as black-box libraries); it is a parameter
  `ZlibBackend` of the model.  Everything the wrapper code does around it
  is translated from the source.
* The C buffers `struct wtap_reader_buf` store `buf`, `next`, `avail`.
  We represent a buffer by the list of bytes stored from the buffer base
  through the end of valid data (`content`, of length
  `(next - buf) + avail = bytes_in_buffer`) plus the cursor offset
  (`next`); `avail` is then `content.length - next`.  Every mutation in
  the source preserves that correspondence.
* `ws_read` is modelled as a total read from an in-memory file, so the
  `errno`/negative-return path of `buf_read` does not occur in the model.
* Loops in the source become fuelled recursions returning `Option`;
  `none` means the fuel ran out, and theorems are stated about `some`
  results.
* Machine integers: gint64 becomes `Int`; guint/guint32 counters that
  stay small become `Nat`, with an explicit `% 2^32` where the C casts
  or masks to 32 bits.
-/

namespace FileWrappers

/-- Error codes from the wiretap public header (values as in wtap.h;
only their distinctness and non-zeroness matter here). -/
def WTAP_ERR_SHORT_READ : Int := -12

def WTAP_ERR_DECOMPRESS : Int := -16

def WTAP_ERR_DECOMPRESSION_NOT_SUPPORTED : Int := -18

def ENOMEM : Int := 12

def EINVAL : Int := 22

/-- zlib return codes. -/
def Z_OK : Int := 0

def Z_STREAM_END : Int := 1

def Z_NEED_DICT : Int := 2

def Z_STREAM_ERROR : Int := -2

def Z_DATA_ERROR : Int := -3

def Z_MEM_ERROR : Int := -4

/-- G_MAXINT64. -/
def G_MAXINT64 : Int := 9223372036854775807

/-- values for wtap_reader compression (compression_t in the source;
ZLIB/GZIP_AFTER_HEADER present because HAVE_ZLIB is defined). -/
inductive Compression where
  | UNKNOWN
  | UNCOMPRESSED
  | ZLIB
  | GZIP_AFTER_HEADER
deriving DecidableEq

/-- The `const char *err_info` strings of the source, as a sum type so
that each message is a distinct value (the exact C string for each
constructor is given by ErrInfo.text). -/
inductive ErrInfo where
  | badCRC
  | lengthFieldWrong
  | unknownCompressionMethod
  | reservedFlagBitsSet
  | presetDictionaryNeeded
  | zstdNotSupported
  | lz4NotSupported
  | zlibMsg (msg : String)
deriving DecidableEq

/-- The literal message strings of the source for each error. -/
def ErrInfo.text : ErrInfo → String
  | .badCRC => "bad CRC"
  | .lengthFieldWrong => "length field wrong"
  | .unknownCompressionMethod => "unknown compression method"
  | .reservedFlagBitsSet => "reserved flag bits set"
  | .presetDictionaryNeeded => "preset dictionary needed"
  | .zstdNotSupported => "reading zstd-compressed files isn\x27t supported"
  | .lz4NotSupported => "reading lz4-compressed files isn\x27t supported"
  | .zlibMsg m => m

/-- The in-memory file standing in for the OS file descriptor:
its whole contents and the current file offset. -/
structure Fd where
  data : List Nat
  pos : Int
deriving DecidableEq

/-- ws_read(fd, ptr, n): returns up to n bytes from the current offset
and advances the offset by the number of bytes actually read. -/
def ws_read (fd : Fd) (n : Nat) : List Nat × Fd :=
  let bytes := (fd.data.drop fd.pos.toNat).take n
  (bytes, { fd with pos := fd.pos + bytes.length })

/-- struct wtap_reader_buf.  `content` is the data stored from the
buffer base (length = bytes_in_buffer), `next` the cursor offset. -/
structure Buf where
  content : List Nat
  next : Nat
deriving DecidableEq

/-- number of bytes available to deliver at next (the C `avail` field). -/
def Buf.avail (b : Buf) : Nat := b.content.length - b.next

/-- Current read offset within a buffer (`next - buf`). -/
def offset_in_buffer (b : Buf) : Nat := b.next

/-- Number of bytes of data that are in a buffer (`(next + avail) - buf`). -/
def bytes_in_buffer (b : Buf) : Nat := b.content.length

/-- Reset a buffer, discarding all data in the buffer. -/
def buf_reset (_ : Buf) : Buf := { content := [], next := 0 }

/-- The z_stream structure as seen by this file: the fields the wrapper
reads or writes (adler, total_out, data_type, msg) plus the opaque
inflate-internal state, abstracted as a Nat. -/
structure ZStream where
  internal : Nat
  adler : Nat
  total_out : Nat
  data_type : Nat
  msg : String
deriving DecidableEq

/-- Result of one inflate(strm, Z_BLOCK) call: return code, number of
input bytes consumed, bytes produced, and the updated stream. -/
structure InflateResult where
  ret : Int
  consumed : Nat
  produced : List Nat
  strm : ZStream
deriving DecidableEq

/-- The zlib primitives used by the source, as a black-box backend
(the spec lists deflate/inflate as external collaborators). -/
structure ZlibBackend where
  inflate : ZStream → List Nat → Nat → InflateResult
  crc32 : Nat → List Nat → Nat
  inflateReset : ZStream → ZStream
  inflatePrime : ZStream → Nat → Nat → ZStream
  inflateSetDictionary : ZStream → List Nat → ZStream

/-- preceding 32K of uncompressed data: struct zlib_cur_seek_point.
`have_` renders the C field `have` (a Lean keyword). -/
structure ZlibCurSeekPoint where
  window : List Nat
  pos : Nat
  have_ : Nat
deriving DecidableEq

/-- struct fast_seek_point.  The C union `data.zlib` is flattened into
the `z`-prefixed fields; entries created by fast_seek_header leave them
unread (the C leaves them uninitialized), modelled as zeros/[].
`inp` renders the C field `in` (a Lean keyword). -/
structure FastSeekPoint where
  out : Int
  inp : Int
  compression : Compression
  zbits : Nat
  zwindow : List Nat
  zadler : Nat
  ztotal_out : Nat
deriving DecidableEq

/-- struct wtap_reader.  `inb` renders the C field `in` (a Lean
keyword); `avail` of each buffer is derived (see Buf). -/
structure Reader where
  fd : Fd
  raw_pos : Int
  pos : Int
  size : Nat
  inb : Buf
  out : Buf
  eof : Bool
  start : Int
  raw : Int
  compression : Compression
  is_compressed : Bool
  skip : Int
  seek_pending : Bool
  err : Int
  err_info : Option ErrInfo
  strm : ZStream
  dont_check_crc : Bool
  fast_seek : Option (List FastSeekPoint)
  fast_seek_cur : Option ZlibCurSeekPoint
deriving DecidableEq

/-- buf_read: refill a buffer from the fd.  In the model ws_read is
total, so the negative-return (errno) path of the C does not occur and
the int result is dropped.  A zero-length read sets `eof`. -/
def buf_read (s : Reader) (buf : Buf) : Reader × Buf :=
  let space_left := s.size - bytes_in_buffer buf
  let buf0 := if space_left = 0 then buf_reset buf else buf
  let to_read := if space_left = 0 then s.size else space_left
  let p := ws_read s.fd to_read
  ({ s with fd := p.2
          , eof := if p.1.length = 0 then true else s.eof
          , raw_pos := s.raw_pos + p.1.length },
   { buf0 with content := buf0.content ++ p.1 })

/-- fill_in_buffer (gz_avail in the source). -/
def fill_in_buffer (s : Reader) : Reader × Int :=
  if s.err ≠ 0 then (s, -1)
  else if s.eof = false then
    let p := buf_read s s.inb
    ({ p.1 with inb := p.2 }, 0)
  else (s, 0)

/-- GZ_GETC(): next byte from input, or -1 if end or error. -/
def GZ_GETC (s : Reader) : Reader × Int :=
  if s.inb.avail = 0 then
    let p := fill_in_buffer s
    if p.2 = -1 then (p.1, -1)
    else if p.1.inb.avail = 0 then (p.1, -1)
    else ({ p.1 with inb := { p.1.inb with next := p.1.inb.next + 1 } },
          (p.1.inb.content.getD p.1.inb.next 0 : Int))
  else ({ s with inb := { s.inb with next := s.inb.next + 1 } },
        (s.inb.content.getD s.inb.next 0 : Int))

/-- record a short read: on EOF from GZ_GETC the helpers set
WTAP_ERR_SHORT_READ unless an error is already recorded. -/
def short_read (s : Reader) : Reader :=
  if s.err = 0 then { s with err := WTAP_ERR_SHORT_READ, err_info := none } else s

/-- conversion of the int -1/byte values to the C unsigned widths used
when gz_next2/gz_next4 accumulate them. -/
def toU32 (i : Int) : Nat := (i % 4294967296).toNat

def toU16 (i : Int) : Nat := (i % 65536).toNat

/-- gz_next1: one-byte integer, with the 0 or -1 protocol rendered as
Option. -/
def gz_next1 (s : Reader) : Reader × Option Nat :=
  let p := GZ_GETC s
  if p.2 = -1 then (short_read p.1, none)
  else (p.1, some p.2.toNat)

/-- gz_next2: two-byte little-endian integer (only the last GZ_GETC is
checked, as in the source). -/
def gz_next2 (s : Reader) : Reader × Option Nat :=
  let p0 := GZ_GETC s
  let p1 := GZ_GETC p0.1
  if p1.2 = -1 then (short_read p1.1, none)
  else (p1.1, some ((toU16 p0.2 + p1.2.toNat * 256) % 65536))

/-- gz_next4: four-byte little-endian integer (only the last GZ_GETC is
checked, as in the source; earlier -1 values would enter the sum as
their unsigned conversions, exactly as the C int-to-guint32 casts do). -/
def gz_next4 (s : Reader) : Reader × Option Nat :=
  let p0 := GZ_GETC s
  let p1 := GZ_GETC p0.1
  let p2 := GZ_GETC p1.1
  let p3 := GZ_GETC p2.1
  if p3.2 = -1 then (short_read p3.1, none)
  else (p3.1, some ((toU32 p0.2 + toU32 p1.2 * 256 + toU32 p2.2 * 65536 +
                     p3.2.toNat * 16777216) % 4294967296))

/-- gz_skipn: skip n bytes. -/
def gz_skipn : Reader → Nat → Reader × Int
  | s, 0 => (s, 0)
  | s, n + 1 =>
    let p := GZ_GETC s
    if p.2 = -1 then (short_read p.1, -1)
    else gz_skipn p.1 n

/-- gz_skipzstr: skip a null-terminated string (fuelled loop). -/
def gz_skipzstr : Nat → Reader → Option (Reader × Int)
  | 0, _ => none
  | fuel + 1, s =>
    let p := GZ_GETC s
    if p.2 > 0 then gz_skipzstr fuel p.1
    else if p.2 = -1 then some (short_read p.1, -1)
    else some (p.1, 0)

/-- ZLIB_WINSIZE. -/
def ZLIB_WINSIZE : Nat := 32768

/-- SPAN (minimum logical distance between deflate checkpoints). -/
def SPAN : Int := 1048576

/-- placeholder fast-seek point used for out-of-range getD (never read
on in-range indices). -/
def fsp_dummy : FastSeekPoint :=
  { out := 0, inp := 0, compression := .UNKNOWN, zbits := 0, zwindow := []
  , zadler := 0, ztotal_out := 0 }

/-- the binary-search loop of fast_seek_find: low/max bounds, `smallest`
is the best entry with out < pos seen so far. -/
def fsf_loop (l : List FastSeekPoint) (pos : Int)
    (smallest : Option FastSeekPoint) (low max : Nat) :
    Option FastSeekPoint :=
  if h : low < max then
    let i := (low + max) / 2
    let item := l.getD i fsp_dummy
    if pos < item.out then fsf_loop l pos smallest low i
    else if item.out < pos then fsf_loop l pos (some item) (i + 1) max
    else some item
  else smallest
termination_by max - low
decreasing_by
  · omega
  · omega

/-- fast_seek_find: largest checkpoint with out ≤ pos, if any. -/
def fast_seek_find (s : Reader) (pos : Int) : Option FastSeekPoint :=
  match s.fast_seek with
  | none => none
  | some l => fsf_loop l pos none 0 l.length

/-- the append logic of fast_seek_header on the checkpoint array. -/
def fast_seek_header_list (l : List FastSeekPoint) (in_pos out_pos : Int)
    (compression : Compression) : List FastSeekPoint :=
  let val : FastSeekPoint :=
    { out := out_pos, inp := in_pos, compression := compression
    , zbits := 0, zwindow := [], zadler := 0, ztotal_out := 0 }
  match l.getLast? with
  | none => l ++ [val]
  | some item => if item.out < out_pos then l ++ [val] else l

/-- fast_seek_header (call sites guard on file->fast_seek being set,
and the no-array case leaves the reader unchanged). -/
def fast_seek_header (s : Reader) (in_pos out_pos : Int)
    (compression : Compression) : Reader :=
  match s.fast_seek with
  | none => s
  | some l =>
    { s with fast_seek := some (fast_seek_header_list l in_pos out_pos compression) }

/-- the append logic of zlib_fast_seek_add on the checkpoint array
(the source notes the array is necessarily non-empty here; the empty
case is unreachable and modelled as the identity). -/
def zlib_fast_seek_add_list (l : List FastSeekPoint)
    (point : ZlibCurSeekPoint) (bits : Nat) (in_pos out_pos : Int)
    (adler total_out : Nat) : List FastSeekPoint :=
  match l.getLast? with
  | none => l
  | some item =>
    if item.out + SPAN < out_pos then
      let window :=
        if point.pos ≠ 0 then
          point.window.drop point.pos ++ point.window.take point.pos
        else point.window
      l ++ [{ out := out_pos, inp := in_pos, compression := .ZLIB
            , zbits := bits, zwindow := window
            , zadler := adler % 4294967296
            , ztotal_out := total_out % 4294967296 }]
    else l

/-- fast_seek_reset. -/
def fast_seek_reset (s : Reader) : Reader :=
  if s.compression = Compression.ZLIB then
    match s.fast_seek_cur with
    | some cur => { s with fast_seek_cur := some { cur with have_ := 0 } }
    | none => s
  else s

/-- memcpy of src into dst at offset off (in-range at every call site). -/
def overwrite (dst : List Nat) (off : Nat) (src : List Nat) : List Nat :=
  dst.take off ++ src ++ dst.drop (off + src.length)

/-- the rolling-window maintenance of zlib_read (the Z_BLOCK block that
updates state->fast_seek_cur with the bytes just produced). -/
def zlib_window_update (cur : ZlibCurSeekPoint) (produced : List Nat) :
    ZlibCurSeekPoint :=
  let ready := produced.length
  if ready < ZLIB_WINSIZE then
    let left := ZLIB_WINSIZE - cur.pos
    if ready ≥ left then
      let w1 := overwrite cur.window cur.pos (produced.take left)
      let w2 :=
        if ready ≠ left then overwrite w1 0 ((produced.drop left).take (ready - left))
        else w1
      let have1 := cur.have_ + ready
      { window := w2, pos := ready - left
      , have_ := if have1 ≥ ZLIB_WINSIZE then ZLIB_WINSIZE else have1 }
    else
      let w1 := overwrite cur.window cur.pos produced
      let have1 := cur.have_ + ready
      { window := w1, pos := cur.pos + ready
      , have_ := if have1 ≥ ZLIB_WINSIZE then ZLIB_WINSIZE else have1 }
  else
    { window := produced.drop (ready - ZLIB_WINSIZE), pos := 0
    , have_ := ZLIB_WINSIZE }

/-- the gzip-trailer verification at the end of zlib_read (the
`ret == Z_STREAM_END` block, lines 678-692 of the source): read
4-byte CRC and 4-byte length, set a deferred error on mismatch (CRC
mismatches are ignored under dont_check_crc), and in every case go
back to UNKNOWN and release the rolling-window state. -/
def zlib_trailer_verify (s : Reader) : Reader :=
  match (gz_next4 s).2 with
  | none => (gz_next4 s).1
  | some crc =>
    match (gz_next4 (gz_next4 s).1).2 with
    | none => (gz_next4 (gz_next4 s).1).1
    | some len =>
      let s2 := (gz_next4 (gz_next4 s).1).1
      if crc ≠ s2.strm.adler ∧ s2.dont_check_crc = false then
        { s2 with err := WTAP_ERR_DECOMPRESS, err_info := some ErrInfo.badCRC }
      else if len ≠ s2.strm.total_out % 4294967296 then
        { s2 with err := WTAP_ERR_DECOMPRESS, err_info := some ErrInfo.lengthFieldWrong }
      else s2

/-- the unconditional tail of the Z_STREAM_END block: ready for the
next stream, release the rolling window. -/
def zlib_trailer_postlude (s : Reader) : Reader :=
  { s with compression := Compression.UNKNOWN, fast_seek_cur := none }

def zlib_check_trailer (s : Reader) : Reader :=
  zlib_trailer_postlude (zlib_trailer_verify s)

/-- outcome of one iteration of the do-while loop in zlib_read:
`brkKeep` is a break that keeps the previous inflate return value (the
two input-exhaustion breaks), `brkRet` a break out of an inflate error
(the iteration's return value stands), `cont` a completed iteration
with the bytes just produced. -/
inductive ZlibStep where
  | brkKeep (s : Reader)
  | brkRet (s : Reader) (ret : Int)
  | cont (s : Reader) (producedNow : List Nat) (ret : Int)

/-- reader state carried by a ZlibStep. -/
def ZlibStep.state : ZlibStep → Reader
  | .brkKeep s => s
  | .brkRet s _ => s
  | .cont s _ _ => s

/-- the part of the zlib_read body that follows the inflate call on
state `s1` with result `res`: advance the input cursor, map errors,
update the checksum and maintain the rolling window / checkpoints. -/
def zlib_read_after_inflate (be : ZlibBackend) (s1 : Reader)
    (res : InflateResult) (avail_out count : Nat) : ZlibStep :=
  let s2 := { s1 with inb := { s1.inb with next := s1.inb.next + res.consumed }
                    , strm := res.strm }
  if res.ret = Z_STREAM_ERROR then
    .brkRet { s2 with err := WTAP_ERR_DECOMPRESS
                    , err_info := some (ErrInfo.zlibMsg res.strm.msg) } res.ret
  else if res.ret = Z_NEED_DICT then
    .brkRet { s2 with err := WTAP_ERR_DECOMPRESS
                    , err_info := some ErrInfo.presetDictionaryNeeded } res.ret
  else if res.ret = Z_MEM_ERROR then
    .brkRet { s2 with err := ENOMEM, err_info := none } res.ret
  else if res.ret = Z_DATA_ERROR then
    .brkRet { s2 with err := WTAP_ERR_DECOMPRESS
                    , err_info := some (ErrInfo.zlibMsg res.strm.msg) } res.ret
  else
    let s3 := { s2 with strm := { s2.strm with adler := be.crc32 s2.strm.adler res.produced } }
    let avail_out1 := avail_out - res.produced.length
    let s4 :=
      match s3.fast_seek_cur with
      | none => s3
      | some cur =>
        let cur1 := zlib_window_update cur res.produced
        let s3b := { s3 with fast_seek_cur := some cur1 }
        if cur1.have_ ≥ ZLIB_WINSIZE ∧ res.ret ≠ Z_STREAM_END ∧
           s3b.strm.data_type.testBit 7 = true ∧ s3b.strm.data_type.testBit 6 = false then
          match s3b.fast_seek with
          | some l =>
            { s3b with fast_seek := some (zlib_fast_seek_add_list l cur1
                (s3b.strm.data_type % 8) (s3b.raw_pos - s3b.inb.avail)
                (s3b.pos + ((count : Int) - (avail_out1 : Int)))
                s3b.strm.adler s3b.strm.total_out) }
          | none => s3b
        else s3b
    .cont s4 res.produced res.ret

/-- one iteration of the zlib_read do-while body: refill the input
buffer if needed, fail on exhausted input, then inflate and
post-process.  `avail_out` is the remaining output room, `count` the
total output capacity. -/
def zlib_read_body (be : ZlibBackend) (s : Reader) (avail_out count : Nat) :
    ZlibStep :=
  let pf := if s.inb.avail = 0 then fill_in_buffer s else (s, 0)
  if pf.2 = -1 then .brkKeep pf.1
  else if pf.1.inb.avail = 0 then
    .brkKeep { pf.1 with err := WTAP_ERR_SHORT_READ, err_info := none }
  else
    zlib_read_after_inflate be pf.1
      (be.inflate pf.1.strm ((pf.1.inb.content.drop pf.1.inb.next).take pf.1.inb.avail) avail_out)
      avail_out count

/-- the do-while loop of zlib_read; `produced` are the bytes written to
the output region so far, `avail_out` the remaining room, `ret` the
last inflate return value (initially 0), `count` the total capacity. -/
def zlib_read_loop (be : ZlibBackend) : Nat → Reader → List Nat → Nat → Int → Nat →
    Option (Reader × List Nat × Nat × Int)
  | 0, _, _, _, _, _ => none
  | fuel + 1, s, produced, avail_out, ret, count =>
    match zlib_read_body be s avail_out count with
    | .brkKeep s1 => some (s1, produced, avail_out, ret)
    | .brkRet s1 ret1 => some (s1, produced, avail_out, ret1)
    | .cont s1 producedNow ret1 =>
      let produced1 := produced ++ producedNow
      let avail_out1 := avail_out - producedNow.length
      if avail_out1 ≠ 0 ∧ ret1 ≠ Z_STREAM_END then
        zlib_read_loop be fuel s1 produced1 avail_out1 ret1 count
      else some (s1, produced1, avail_out1, ret1)

/-- zlib_read (gz_decomp in the source): fill the output region up to
end of deflate stream or error, then install the produced bytes as the
output buffer and, at stream end, verify the gzip trailer. -/
def zlib_read (be : ZlibBackend) (fuel : Nat) (s : Reader) (count : Nat) :
    Option Reader :=
  match zlib_read_loop be fuel s [] count 0 count with
  | none => none
  | some (s1, produced, _, ret) =>
    let s2 := { s1 with out := { content := produced, next := 0 } }
    if ret = Z_STREAM_END then some (zlib_check_trailer s2) else some s2

/-- consume one byte from the input buffer (the in.avail--; in.next++
pairs inside gz_head). -/
def in_consume1 (s : Reader) : Reader :=
  { s with inb := { s.inb with next := s.inb.next + 1 } }

/-- unget one byte into the input buffer (in.avail++; in.next--). -/
def in_unget1 (s : Reader) : Reader :=
  { s with inb := { s.inb with next := s.inb.next - 1 } }

/-- set up for decompression (tail of the gzip-header branch of
gz_head): reset the inflater to raw mode, reset the running checksum,
enter ZLIB mode, and (with a fast-seek array) record a
GZIP_AFTER_HEADER checkpoint and a fresh rolling window (the C
g_new window is uninitialized; modelled as zeros, it is overwritten
before being read). -/
def gz_header_setup (be : ZlibBackend) (s : Reader) : Reader :=
  let strm1 := be.inflateReset s.strm
  let strm2 := { strm1 with adler := be.crc32 0 [] }
  let s1 := { s with strm := strm2, compression := Compression.ZLIB
                   , is_compressed := true }
  match s1.fast_seek with
  | none => s1
  | some _ =>
    let cur : ZlibCurSeekPoint :=
      { window := List.replicate ZLIB_WINSIZE 0, pos := 0, have_ := 0 }
    fast_seek_header { s1 with fast_seek_cur := some cur }
      (s1.raw_pos - s1.inb.avail) s1.pos Compression.GZIP_AFTER_HEADER

/-- the optional extra field of the gzip header (FLG bit 2): XLEN then
that many bytes skipped. -/
def gz_hdr_extra_field (s : Reader) : Reader × Int :=
  match (gz_next2 s).2 with
  | none => ((gz_next2 s).1, -1)
  | some len => gz_skipn (gz_next2 s).1 len

/-- the optional header crc of the gzip header (FLG bit 1): two bytes
skipped without verification. -/
def gz_hdr_hcrc (s : Reader) : Reader × Int :=
  match (gz_next2 s).2 with
  | none => ((gz_next2 s).1, -1)
  | some _ => ((gz_next2 s).1, 0)

/-- optional gzip-header fields of gz_head: extra field (FLG bit 2),
file name (bit 3), comment (bit 4), header crc (bit 1); on success the
decompression set-up runs. -/
def gz_header_extra (be : ZlibBackend) (fuel : Nat) (s : Reader) (flags : Nat) :
    Option (Reader × Int) :=
  let p1 := if flags &&& 4 ≠ 0 then gz_hdr_extra_field s else (s, 0)
  if p1.2 = -1 then some (p1.1, -1)
  else
    match (if flags &&& 8 ≠ 0 then gz_skipzstr fuel p1.1 else some (p1.1, 0)) with
    | none => none
    | some p2 =>
      if p2.2 = -1 then some (p2.1, -1)
      else
        match (if flags &&& 16 ≠ 0 then gz_skipzstr fuel p2.1 else some (p2.1, 0)) with
        | none => none
        | some p3 =>
          if p3.2 = -1 then some (p3.1, -1)
          else
            let p4 := if flags &&& 2 ≠ 0 then gz_hdr_hcrc p3.1 else (p3.1, 0)
            if p4.2 = -1 then some (p4.1, -1)
            else some (gz_header_setup be p4.1, 0)

/-- the rest of gz_head after the 1F 8B magic has been consumed: parse
the remaining gzip header fields, then set up for raw inflate
(HAVE_ZLIB build). -/
def gz_header_rest (be : ZlibBackend) (fuel : Nat) (s : Reader) :
    Option (Reader × Int) :=
  let pcm := gz_next1 s
  match pcm.2 with
  | none => some (pcm.1, -1)
  | some cm =>
    if cm ≠ 8 then
      some ({ pcm.1 with err := WTAP_ERR_DECOMPRESS
                       , err_info := some ErrInfo.unknownCompressionMethod }, -1)
    else
      let pfl := gz_next1 pcm.1
      match pfl.2 with
      | none => some (pfl.1, -1)
      | some flags =>
        if flags &&& 0xe0 ≠ 0 then
          some ({ pfl.1 with err := WTAP_ERR_DECOMPRESS
                           , err_info := some ErrInfo.reservedFlagBitsSet }, -1)
        else
          let pmt := gz_skipn pfl.1 4
          if pmt.2 = -1 then some (pmt.1, -1)
          else
            let pxf := gz_skipn pmt.1 1
            if pxf.2 = -1 then some (pxf.1, -1)
            else
              let pos_ := gz_skipn pxf.1 1
              if pos_.2 = -1 then some (pos_.1, -1)
              else gz_header_extra be fuel pos_.1 flags

/-- the non-gzip tail of gz_head: zstd and lz4 magic (no backend in
this build, so DECOMPRESSION_NOT_SUPPORTED), otherwise raw i/o: record
an UNCOMPRESSED checkpoint, remember raw = pos, copy everything in the
input buffer (from its base, as the source does) to the output buffer
and reset the input buffer. -/
def gz_head_detect (s : Reader) : Option (Reader × Int) :=
  if s.inb.avail ≥ 4 ∧ s.inb.content.getD 0 0 = 0x28 ∧
     s.inb.content.getD 1 0 = 0xb5 ∧ s.inb.content.getD 2 0 = 0x2f ∧
     s.inb.content.getD 3 0 = 0xfd then
    some ({ s with err := WTAP_ERR_DECOMPRESSION_NOT_SUPPORTED
                 , err_info := some ErrInfo.zstdNotSupported }, -1)
  else if s.inb.avail ≥ 4 ∧ s.inb.content.getD 0 0 = 0x04 ∧
          s.inb.content.getD 1 0 = 0x22 ∧ s.inb.content.getD 2 0 = 0x4d ∧
          s.inb.content.getD 3 0 = 0x18 then
    some ({ s with err := WTAP_ERR_DECOMPRESSION_NOT_SUPPORTED
                 , err_info := some ErrInfo.lz4NotSupported }, -1)
  else
    let s1 := fast_seek_header s (s.raw_pos - s.inb.avail - s.out.avail)
                s.pos Compression.UNCOMPRESSED
    let s2 := { s1 with raw := s1.pos }
    let already_read := bytes_in_buffer s2.inb
    let s3 :=
      if already_read ≠ 0 then
        { s2 with out := { content := s2.inb.content, next := 0 }
                , inb := buf_reset s2.inb }
      else { s2 with out := { s2.out with next := 0, content := [] } }
    some ({ s3 with compression := Compression.UNCOMPRESSED }, 0)

/-- the body of gz_head once at least one input byte is buffered: look
for the gzip magic 1F 8B (ungetting the 1F when the second byte does
not match), else fall to the other magic checks / raw i/o. -/
def gz_head_main (be : ZlibBackend) (fuel : Nat) (s : Reader) :
    Option (Reader × Int) :=
  if s.inb.content.getD s.inb.next 0 = 31 then
    let sA := in_consume1 s
    let pf := if sA.inb.avail = 0 then fill_in_buffer sA else (sA, 0)
    if pf.2 = -1 then some (pf.1, -1)
    else
      let sB := pf.1
      if sB.inb.avail ≠ 0 then
        if sB.inb.content.getD sB.inb.next 0 = 139 then
          gz_header_rest be fuel (in_consume1 sB)
        else gz_head_detect (in_unget1 sB)
      else gz_head_detect sB
  else gz_head_detect s

/-- gz_head: ensure a byte is buffered (returning 0 with no data if the
input is already exhausted), then detect the format. -/
def gz_head (be : ZlibBackend) (fuel : Nat) (s : Reader) :
    Option (Reader × Int) :=
  if s.inb.avail = 0 then
    let pf := fill_in_buffer s
    if pf.2 = -1 then some (pf.1, -1)
    else if pf.1.inb.avail = 0 then some (pf.1, 0)
    else gz_head_main be fuel pf.1
  else gz_head_main be fuel s

/-- fill_out_buffer (gz_make in the source), split after the UNKNOWN
case: dispatch on the compression mode.  GZIP_AFTER_HEADER matches no
branch in the C and falls through returning 0 (it is never the live
mode of a reader). -/
def fill_out_rest (be : ZlibBackend) (fuel : Nat) (s : Reader) :
    Option (Reader × Int) :=
  if s.compression = Compression.UNCOMPRESSED then
    let p := buf_read s s.out
    some ({ p.1 with out := p.2 }, 0)
  else if s.compression = Compression.ZLIB then
    match zlib_read be fuel s (s.size * 2) with
    | none => none
    | some s1 => some (s1, 0)
  else some (s, 0)

/-- fill_out_buffer: look for a header when the mode is UNKNOWN (and
return early if that already produced output), then run the driver. -/
def fill_out_buffer (be : ZlibBackend) (fuel : Nat) (s : Reader) :
    Option (Reader × Int) :=
  if s.compression = Compression.UNKNOWN then
    match gz_head be fuel s with
    | none => none
    | some (s1, r) =>
      if r = -1 then some (s1, -1)
      else if s1.out.avail ≠ 0 then some (s1, 0)
      else fill_out_rest be fuel s1
  else fill_out_rest be fuel s

/-- gz_skip: skip over len bytes or reach end-of-file, whichever comes
first. -/
def gz_skip (be : ZlibBackend) : Nat → Reader → Int → Option (Reader × Int)
  | 0, _, _ => none
  | fuel + 1, s, len =>
    if len ≠ 0 then
      if s.out.avail ≠ 0 then
        let n := if (s.out.avail : Int) > len then len.toNat else s.out.avail
        gz_skip be fuel
          { s with out := { s.out with next := s.out.next + n }, pos := s.pos + n }
          (len - n)
      else if s.err ≠ 0 then some (s, -1)
      else if s.eof = true ∧ s.inb.avail = 0 then some (s, 0)
      else
        match fill_out_buffer be fuel s with
        | none => none
        | some (s1, r) =>
          if r = -1 then some (s1, -1) else gz_skip be fuel s1 len
    else some (s, 0)

/-- gz_reset. -/
def gz_reset (s : Reader) : Reader :=
  { s with out := { content := [], next := 0 }
         , eof := false
         , compression := Compression.UNKNOWN
         , seek_pending := false
         , err := 0
         , err_info := none
         , pos := 0
         , inb := { content := [], next := 0 } }

/-- file_fdopen: wrap an fd.  The initial z_stream contents are never
consulted before gz_head resets the inflater, so they are zeros here;
`raw` comes from the zero-filled allocation. -/
def file_fdopen (fd : Fd) (size : Nat) : Reader :=
  { fd := fd
  , raw_pos := fd.pos
  , pos := 0
  , size := size
  , inb := { content := [], next := 0 }
  , out := { content := [], next := 0 }
  , eof := false
  , start := fd.pos
  , raw := 0
  , compression := Compression.UNKNOWN
  , is_compressed := false
  , skip := 0
  , seek_pending := false
  , err := 0
  , err_info := none
  , strm := { internal := 0, adler := 0, total_out := 0, data_type := 0, msg := "" }
  , dont_check_crc := false
  , fast_seek := none
  , fast_seek_cur := none }

/-- seek origins. -/
inductive Whence where
  | SEEK_SET
  | SEEK_CUR
  | SEEK_END
deriving DecidableEq

/-- common tail of file_seek (after a possible rewind): skip what is in
the output buffer, then defer the remaining forward skip. -/
def file_seek_skip (s : Reader) (offset : Int) : Option (Reader × Int) :=
  let n := if (s.out.avail : Int) > offset then offset.toNat else s.out.avail
  let s1 := { s with out := { s.out with next := s.out.next + n }, pos := s.pos + n }
  let offset1 := offset - n
  if offset1 ≠ 0 then
    some ({ s1 with seek_pending := true, skip := offset1 }, s1.pos + offset1)
  else some (s1, s1.pos + offset1)

/-- conclusion of the fast-seek branch: set the residual deferred skip
and return the target position. -/
def file_seek_fast_finish (s : Reader) (target off2 : Int) :
    Option (Reader × Int) :=
  let offset1 := target - off2
  let s1 := { s with pos := off2 }
  if offset1 ≠ 0 then
    some ({ s1 with seek_pending := true, skip := offset1 }, s1.pos + offset1)
  else some (s1, s1.pos + offset1)

/-- the branches of file_seek below the in-buffer cases: uncompressed
raw lseek, rewind-and-skip, deferred forward skip. -/
def file_seek_tail (s : Reader) (offset : Int) : Option (Reader × Int) :=
  if s.compression = Compression.UNCOMPRESSED ∧ s.pos + offset ≥ s.raw ∧
     (offset < 0 ∨ offset ≥ (s.out.avail : Int)) ∧ s.fast_seek ≠ none then
    let delta := offset - (s.out.avail : Int)
    let s1 := { s with fd := { s.fd with pos := s.fd.pos + delta }
                     , raw_pos := s.raw_pos + delta
                     , out := { content := [], next := 0 }
                     , eof := false
                     , seek_pending := false
                     , err := 0
                     , err_info := none
                     , inb := { content := [], next := 0 }
                     , pos := s.pos + offset }
    some (s1, s1.pos)
  else if offset < 0 then
    let offset1 := offset + s.pos
    if offset1 < 0 then some (s, -1)
    else
      let s1 := fast_seek_reset { s with fd := { s.fd with pos := s.start } }
      let s2 := gz_reset { s1 with raw_pos := s1.start }
      file_seek_skip s2 offset1
  else file_seek_skip s offset

/-- the fast-seek checkpoint branch of file_seek, entered with `here`
the checkpoint found for the target. -/
def file_seek_fast (be : ZlibBackend) (s : Reader) (offset : Int)
    (here : FastSeekPoint) : Option (Reader × Int) :=
  let target := s.pos + offset
  let offOff2 : Int × Int :=
    if here.compression = Compression.ZLIB then
      (here.inp - (if here.zbits ≠ 0 then 1 else 0), here.out)
    else if here.compression = Compression.GZIP_AFTER_HEADER then
      (here.inp, here.out)
    else (here.inp + (target - here.out), target)
  let off := offOff2.1
  let off2 := offOff2.2
  let s1 := fast_seek_reset { s with fd := { s.fd with pos := off } }
  let s2 := { s1 with raw_pos := off
                    , out := { content := [], next := 0 }
                    , eof := false
                    , seek_pending := false
                    , err := 0
                    , err_info := none
                    , inb := { content := [], next := 0 } }
  if here.compression = Compression.ZLIB then
    let strm1 := be.inflateReset s2.strm
    let strm2 := { strm1 with adler := here.zadler, total_out := here.ztotal_out }
    if here.zbits ≠ 0 then
      let pg := GZ_GETC { s2 with strm := strm2 }
      if pg.2 = -1 then some (pg.1, -1)
      else
        let strm3 := be.inflatePrime pg.1.strm here.zbits
                       (pg.2.toNat >>> (8 - here.zbits))
        let strm4 := be.inflateSetDictionary strm3 here.zwindow
        file_seek_fast_finish
          { pg.1 with strm := strm4, compression := Compression.ZLIB } target off2
    else
      let strm4 := be.inflateSetDictionary strm2 here.zwindow
      file_seek_fast_finish
        { s2 with strm := strm4, compression := Compression.ZLIB } target off2
  else if here.compression = Compression.GZIP_AFTER_HEADER then
    let strm1 := be.inflateReset s2.strm
    let strm2 := { strm1 with adler := be.crc32 0 [] }
    file_seek_fast_finish
      { s2 with strm := strm2, compression := Compression.ZLIB } target off2
  else
    file_seek_fast_finish { s2 with compression := here.compression } target off2

/-- core of file_seek once the offset is a signed delta from pos: clear
any pending seek, then try the in-buffer adjustments, the fast-seek
index, and the remaining strategies. -/
def file_seek_core (be : ZlibBackend) (s0 : Reader) (offset : Int) :
    Option (Reader × Int) :=
  let s := { s0 with seek_pending := false }
  if offset = 0 then some (s, s.pos)
  else
    let inBuf : Option (Reader × Int) :=
      if offset < 0 then
        if -offset ≤ (offset_in_buffer s.out : Int) then
          let adjustment := (-offset).toNat
          let s1 := { s with out := { s.out with next := s.out.next - adjustment }
                           , pos := s.pos - adjustment }
          some (s1, s1.pos)
        else none
      else
        if offset < (s.out.avail : Int) then
          let s1 := { s with out := { s.out with next := s.out.next + offset.toNat }
                           , pos := s.pos + offset }
          some (s1, s1.pos)
        else none
    match inBuf with
    | some res => some res
    | none =>
      match fast_seek_find s (s.pos + offset) with
      | some here =>
        if offset < 0 ∨ offset > SPAN ∨ here.compression = Compression.UNCOMPRESSED then
          file_seek_fast be s offset here
        else file_seek_tail s offset
      | none => file_seek_tail s offset

/-- file_seek: normalize the offset to a SEEK_CUR-style delta (seeking
to the end of the stream first for SEEK_END, folding a pending skip in
for SEEK_CUR), then run the core. -/
def file_seek (be : ZlibBackend) (fuel : Nat) (s : Reader) (offset : Int)
    (whence : Whence) : Option (Reader × Int) :=
  match whence with
  | .SEEK_END =>
    match gz_skip be fuel s G_MAXINT64 with
    | none => none
    | some (s1, r) =>
      if r = -1 then some (s1, -1)
      else if offset = 0 then some (s1, s1.pos)
      else file_seek_core be s1 offset
  | .SEEK_SET => file_seek_core be s (offset - s.pos)
  | .SEEK_CUR =>
    file_seek_core be s (offset + (if s.seek_pending then s.skip else 0))

/-- file_tell. -/
def file_tell (s : Reader) : Int :=
  s.pos + (if s.seek_pending then s.skip else 0)

/-- file_tell_raw. -/
def file_tell_raw (s : Reader) : Int := s.raw_pos

/-- file_iscompressed. -/
def file_iscompressed (s : Reader) : Bool := s.is_compressed

/-- the copy loop of file_read; `copied` is the data written to the
caller's buffer so far, `got` its length, `len` the remaining request. -/
def file_read_loop (be : ZlibBackend) : Nat → Reader → Nat → Nat → List Nat →
    Option (Reader × Int × List Nat)
  | 0, _, _, _, _ => none
  | fuel + 1, s, len, got, copied =>
    if s.out.avail ≠ 0 then
      let n := if s.out.avail > len then len else s.out.avail
      let bytes := (s.out.content.drop s.out.next).take n
      let s1 := { s with out := { s.out with next := s.out.next + n }
                       , pos := s.pos + n }
      let len1 := len - n
      let got1 := got + n
      let copied1 := copied ++ bytes
      if len1 = 0 then some (s1, ((got1 : Nat) : Int), copied1)
      else file_read_loop be fuel s1 len1 got1 copied1
    else if s.err ≠ 0 then some (s, -1, copied)
    else if s.eof = true ∧ s.inb.avail = 0 then some (s, ((got : Nat) : Int), copied)
    else
      match fill_out_buffer be fuel s with
      | none => none
      | some (s1, r) =>
        if r = -1 then some (s1, -1, copied)
        else file_read_loop be fuel s1 len got copied

/-- file_read(buf, len): process a pending skip, then copy up to len
bytes out of the output buffer, refilling it as needed.  The returned
list is the data deposited in the caller's buffer (a null buf in C just
skips the memcpy). -/
def file_read (be : ZlibBackend) (fuel : Nat) (s : Reader) (len : Nat) :
    Option (Reader × Int × List Nat) :=
  if len = 0 then some (s, 0, [])
  else if s.seek_pending then
    match gz_skip be fuel { s with seek_pending := false } s.skip with
    | none => none
    | some (s1, r) =>
      if r = -1 then some (s1, -1, [])
      else file_read_loop be fuel s1 len 0 []
  else file_read_loop be fuel s len 0 []

/-- the while(1) loop of file_peekc. -/
def file_peekc_loop (be : ZlibBackend) : Nat → Reader → Option (Reader × Int)
  | 0, _ => none
  | fuel + 1, s =>
    if s.out.avail ≠ 0 then some (s, (s.out.content.getD s.out.next 0 : Int))
    else if s.err ≠ 0 then some (s, -1)
    else if s.eof = true ∧ s.inb.avail = 0 then some (s, -1)
    else
      match fill_out_buffer be fuel s with
      | none => none
      | some (s1, r) =>
        if r = -1 then some (s1, -1) else file_peekc_loop be fuel s1

/-- file_peekc: return the next byte without consuming it. -/
def file_peekc (be : ZlibBackend) (fuel : Nat) (s : Reader) :
    Option (Reader × Int) :=
  if s.err ≠ 0 then some (s, -1)
  else if s.out.avail ≠ 0 then
    some (s, (s.out.content.getD s.out.next 0 : Int))
  else if s.seek_pending then
    match gz_skip be fuel { s with seek_pending := false } s.skip with
    | none => none
    | some (s1, r) =>
      if r = -1 then some (s1, -1) else file_peekc_loop be fuel s1
  else file_peekc_loop be fuel s

/-- file_getc: return the next byte and advance, or -1 on EOF/error. -/
def file_getc (be : ZlibBackend) (fuel : Nat) (s : Reader) :
    Option (Reader × Int) :=
  if s.err ≠ 0 then some (s, -1)
  else if s.out.avail ≠ 0 then
    some ({ s with out := { s.out with next := s.out.next + 1 }
                 , pos := s.pos + 1 },
          (s.out.content.getD s.out.next 0 : Int))
  else
    match file_read be fuel s 1 with
    | none => none
    | some (s1, ret, copied) =>
      if ret < 1 then some (s1, -1) else some (s1, (copied.getD 0 0 : Int))

/-- file_eof. -/
def file_eof (s : Reader) : Bool :=
  s.eof && s.inb.avail == 0 && s.out.avail == 0

/-- file_error (the error code; err_info is read from the state). -/
def file_error (s : Reader) : Int := s.err

/-- file_clearerr. -/
def file_clearerr (s : Reader) : Reader :=
  { s with err := 0, err_info := none, eof := false }

/-! ### The fast-seek index: sortedness and search -/

/-- the fast-seek array is strictly sorted by increasing out. -/
def SortedOut (l : List FastSeekPoint) : Prop :=
  ∀ i j, i < j → j < l.length →
    (l.getD i fsp_dummy).out < (l.getD j fsp_dummy).out

lemma getD_mem {α : Type} (l : List α) (j : Nat) (d : α) (h : j < l.length) :
    l.getD j d ∈ l := by
  induction l generalizing j with
  | nil => simp at h
  | cons a t ih =>
    cases j with
    | zero => simp [List.getD]
    | succ j =>
      simp only [List.getD_cons_succ]
      exact List.mem_cons_of_mem a (ih j (by simpa using h))

lemma mem_getD {α : Type} {l : List α} {a : α} (d : α) (h : a ∈ l) :
    ∃ j, j < l.length ∧ l.getD j d = a := by
  induction l with
  | nil => simp at h
  | cons b t ih =>
    rcases List.mem_cons.mp h with rfl | h2
    · exact ⟨0, by simp, by simp [List.getD]⟩
    · rcases ih h2 with ⟨j, hj, hg⟩
      exact ⟨j + 1, by simpa using hj, by simpa [List.getD_cons_succ] using hg⟩

/-- post-condition established for the result of the binary-search
loop: `none` means every entry lies beyond pos, `some e` means e is an
entry, is ≤ pos, and is the largest such. -/
def FsfPost (l : List FastSeekPoint) (pos : Int) (r : Option FastSeekPoint) : Prop :=
  match r with
  | none => ∀ j, j < l.length → pos < (l.getD j fsp_dummy).out
  | some e => (∃ j, j < l.length ∧ e = l.getD j fsp_dummy ∧ e.out ≤ pos) ∧
              (∀ j, j < l.length → (l.getD j fsp_dummy).out ≤ pos →
                 (l.getD j fsp_dummy).out ≤ e.out)

/-- terminal-state property of the binary-search loop invariant. -/
lemma fsf_terminal (l : List FastSeekPoint) (pos : Int) (hs : SortedOut l)
    (low : Nat) (smallest : Option FastSeekPoint)
    (hml : low ≤ l.length)
    (hbelow : ∀ j, j < low → (l.getD j fsp_dummy).out < pos)
    (habove : ∀ j, low ≤ j → j < l.length → pos < (l.getD j fsp_dummy).out)
    (hsm : smallest = if low = 0 then none else some (l.getD (low - 1) fsp_dummy)) :
    FsfPost l pos smallest := by
  subst hsm
  by_cases h0 : low = 0
  · rw [if_pos h0]
    subst h0
    intro j hj
    exact habove j (by omega) hj
  · rw [if_neg h0]
    constructor
    · exact ⟨low - 1, by omega, rfl, le_of_lt (hbelow (low - 1) (by omega))⟩
    · intro j hj hle
      by_cases hjl : j < low
      · rcases Nat.lt_or_ge j (low - 1) with h | h
        · exact le_of_lt (hs j (low - 1) h (by omega))
        · have : j = low - 1 := by omega
          subst this; exact le_refl _
      · exact absurd (habove j (by omega) hj) (by omega)

/-- invariant-based correctness of the binary-search loop. -/
lemma fsf_loop_spec (l : List FastSeekPoint) (pos : Int) (hs : SortedOut l) :
    ∀ (m low max : Nat) (smallest : Option FastSeekPoint),
      max - low ≤ m → low ≤ max → max ≤ l.length →
      (∀ j, j < low → (l.getD j fsp_dummy).out < pos) →
      (∀ j, max ≤ j → j < l.length → pos < (l.getD j fsp_dummy).out) →
      (smallest = if low = 0 then none else some (l.getD (low - 1) fsp_dummy)) →
      FsfPost l pos (fsf_loop l pos smallest low max) := by
  intro m
  induction m with
  | zero =>
    intro low max smallest hm hlm hml hbelow habove hsm
    have hlowmax : low = max := by omega
    rw [fsf_loop]
    simp only [show ¬ low < max by omega, dite_false]
    subst hlowmax
    exact fsf_terminal l pos hs low smallest hml hbelow
      (fun j h1 h2 => habove j (by omega) h2) hsm
  | succ m ih =>
    intro low max smallest hm hlm hml hbelow habove hsm
    rw [fsf_loop]
    by_cases h : low < max
    · simp only [h, dite_true]
      have hi1 : low ≤ (low + max) / 2 := by omega
      have hi2 : (low + max) / 2 < max := by omega
      by_cases hlt : pos < (l.getD ((low + max) / 2) fsp_dummy).out
      · simp only [hlt, if_true]
        exact ih low ((low + max) / 2) smallest (by omega) (by omega) (by omega)
          hbelow
          (fun j hj1 hj2 => by
            rcases Nat.lt_or_ge j max with hjm | hjm
            · rcases Nat.eq_or_lt_of_le hj1 with rfl | hlt2
              · exact hlt
              · exact lt_trans hlt (hs _ j hlt2 (by omega))
            · exact habove j hjm hj2)
          hsm
      · simp only [hlt, if_false]
        by_cases hgt : (l.getD ((low + max) / 2) fsp_dummy).out < pos
        · simp only [hgt, if_true]
          exact ih ((low + max) / 2 + 1) max (some (l.getD ((low + max) / 2) fsp_dummy))
            (by omega) (by omega) hml
            (fun j hj => by
              rcases Nat.lt_or_ge j ((low + max) / 2) with h2 | h2
              · exact lt_trans (hs j _ h2 (by omega)) hgt
              · have : j = (low + max) / 2 := by omega
                subst this; exact hgt)
            habove
            (by simp)
        · simp only [hgt, if_false]
          have heq : (l.getD ((low + max) / 2) fsp_dummy).out = pos := by omega
          constructor
          · exact ⟨(low + max) / 2, by omega, rfl, le_of_eq heq⟩
          · intro j hj hle
            rw [heq]
            rcases Nat.lt_or_ge j ((low + max) / 2) with h2 | h2
            · exact le_of_lt (lt_of_lt_of_le (hs j _ h2 (by omega)) (le_of_eq heq))
            · rcases Nat.eq_or_lt_of_le h2 with rfl | h3
              · exact le_of_eq heq
              · exact absurd (lt_of_le_of_lt hle
                  (lt_of_le_of_lt (le_of_eq heq.symm) (hs _ j h3 hj))) (by omega)
    · simp only [h, dite_false]
      have hlowmax : low = max := by omega
      subst hlowmax
      exact fsf_terminal l pos hs low smallest hml hbelow
        (fun j h1 h2 => habove j (by omega) h2) hsm

/-- C4: for every fast-seek array strictly sorted by increasing out and
every target p, fast_seek_find returns the entry with the largest
out ≤ p, and returns NULL exactly when no array is attached or every
entry exceeds p. -/
theorem fast_seek_find_correct (s : Reader) (p : Int) :
    (s.fast_seek = none → fast_seek_find s p = none) ∧
    (∀ l, s.fast_seek = some l → SortedOut l →
      ((∀ e, fast_seek_find s p = some e →
          e ∈ l ∧ e.out ≤ p ∧ ∀ e2, e2 ∈ l → e2.out ≤ p → e2.out ≤ e.out) ∧
       (fast_seek_find s p = none ↔ ∀ e2, e2 ∈ l → p < e2.out))) := by
  constructor
  · intro h
    simp [fast_seek_find, h]
  · intro l hl hs
    have hpost : FsfPost l p (fsf_loop l p none 0 l.length) :=
      fsf_loop_spec l p hs l.length 0 l.length none (by omega) (by omega)
        (le_refl _) (fun j hj => absurd hj (by omega))
        (fun j h1 h2 => absurd (lt_of_le_of_lt h1 h2) (by omega)) (by simp)
    have hff : fast_seek_find s p = fsf_loop l p none 0 l.length := by
      simp [fast_seek_find, hl]
    constructor
    · intro e he
      rw [hff] at he
      rw [he] at hpost
      rcases hpost with ⟨⟨j, hj, hej, hle⟩, hmax⟩
      refine ⟨hej ▸ getD_mem l j fsp_dummy hj, hle, ?_⟩
      intro e2 he2 hle2
      rcases mem_getD fsp_dummy he2 with ⟨j2, hj2, hg2⟩
      exact hg2 ▸ hmax j2 hj2 (hg2.symm ▸ hle2)
    · rw [hff]
      constructor
      · intro hnone
        rw [hnone] at hpost
        intro e2 he2
        rcases mem_getD fsp_dummy he2 with ⟨j2, hj2, hg2⟩
        exact hg2 ▸ hpost j2 hj2
      · intro hall
        cases hcase : fsf_loop l p none 0 l.length with
        | none => rfl
        | some e =>
          rw [hcase] at hpost
          rcases hpost with ⟨⟨j, hj, hej, hle⟩, _⟩
          exact absurd (hall e (hej ▸ getD_mem l j fsp_dummy hj)) (by omega)

/-- two strictly ordered entries form a sorted array (used to discharge
SortedOut for concrete witnesses). -/
lemma sortedOut_pair (a b : FastSeekPoint) (h : a.out < b.out) :
    SortedOut [a, b] := by
  intro i j hij hj
  have hj2 : j < 2 := by simpa using hj
  have hi : i = 0 := by omega
  have hj1 : j = 1 := by omega
  subst hi; subst hj1
  simpa [List.getD] using h

/-- appending an entry with out above the current last entry preserves
strict sortedness. -/
lemma sortedOut_append (l : List FastSeekPoint) (v : FastSeekPoint)
    (hs : SortedOut l)
    (hlast : ∀ last, l.getLast? = some last → last.out < v.out) :
    SortedOut (l ++ [v]) := by
  have hgl : ∀ j, j < l.length → (l ++ [v]).getD j fsp_dummy = l.getD j fsp_dummy := by
    intro j hj
    rw [List.getD_eq_getElem?_getD, List.getD_eq_getElem?_getD,
        List.getElem?_append_left hj]
  have hgv : (l ++ [v]).getD l.length fsp_dummy = v := by
    rw [List.getD_eq_getElem?_getD, List.getElem?_append_right (le_refl _)]
    simp
  intro i j hij hj
  simp only [List.length_append, List.length_singleton] at hj
  by_cases hjl : j < l.length
  · rw [hgl i (by omega), hgl j hjl]
    exact hs i j hij hjl
  · have hj2 : j = l.length := by omega
    subst hj2
    have hi : i < l.length := hij
    have hlen0 : 0 < l.length := by omega
    have hlast2 : l.getLast? = some (l.getD (l.length - 1) fsp_dummy) := by
      rw [List.getLast?_eq_getElem?, List.getD_eq_getElem?_getD]
      cases hget : l[l.length - 1]? with
      | none => exact absurd (List.getElem?_eq_none_iff.mp hget) (by omega)
      | some x => simp
    have hv := hlast _ hlast2
    rw [hgl i hi, hgv]
    rcases Nat.lt_or_ge i (l.length - 1) with h2 | h2
    · exact lt_trans (hs i (l.length - 1) h2 (by omega)) hv
    · have : i = l.length - 1 := by omega
      subst this
      exact hv

/-- C5: both append paths of the fast-seek index only ever append at
the end, only with a strictly larger out, and therefore preserve strict
sortedness. -/
theorem fast_seek_append_sorted (l : List FastSeekPoint) (hs : SortedOut l) :
    (∀ in_pos out_pos c,
      SortedOut (fast_seek_header_list l in_pos out_pos c) ∧
      (fast_seek_header_list l in_pos out_pos c = l ∨
       ∃ v, fast_seek_header_list l in_pos out_pos c = l ++ [v] ∧ v.out = out_pos ∧
         ∀ last, l.getLast? = some last → last.out < v.out)) ∧
    (∀ point bits in_pos out_pos adler total_out,
      SortedOut (zlib_fast_seek_add_list l point bits in_pos out_pos adler total_out) ∧
      (zlib_fast_seek_add_list l point bits in_pos out_pos adler total_out = l ∨
       ∃ v, zlib_fast_seek_add_list l point bits in_pos out_pos adler total_out = l ++ [v] ∧
         v.out = out_pos ∧
         ∀ last, l.getLast? = some last → last.out < v.out)) := by
  constructor
  · intro in_pos out_pos c
    cases hlast : l.getLast? with
    | none =>
      have hnil : l = [] := List.getLast?_eq_none_iff.mp hlast
      subst hnil
      have heq : fast_seek_header_list [] in_pos out_pos c =
          [] ++ [{ out := out_pos, inp := in_pos, compression := c, zbits := 0
                 , zwindow := [], zadler := 0, ztotal_out := 0 }] := rfl
      rw [heq]
      refine ⟨?_, Or.inr ⟨_, rfl, rfl, by simp⟩⟩
      exact sortedOut_append [] _ (fun i j hij hj => by simp at hj)
        (fun last hl2 => by simp at hl2)
    | some item =>
      by_cases hcmp : item.out < out_pos
      · have heq : fast_seek_header_list l in_pos out_pos c =
            l ++ [{ out := out_pos, inp := in_pos, compression := c, zbits := 0
                  , zwindow := [], zadler := 0, ztotal_out := 0 }] := by
          unfold fast_seek_header_list
          rw [hlast]
          simp only [if_pos hcmp]
        rw [heq]
        refine ⟨?_, Or.inr ⟨_, rfl, rfl, ?_⟩⟩
        · refine sortedOut_append l _ hs (fun last hl2 => ?_)
          rw [hlast] at hl2
          injection hl2 with h2
          exact h2 ▸ hcmp
        · intro last hl2
          injection hl2 with h2
          exact h2 ▸ hcmp
      · have heq : fast_seek_header_list l in_pos out_pos c = l := by
          unfold fast_seek_header_list
          rw [hlast]
          simp only [if_neg hcmp]
        rw [heq]
        exact ⟨hs, Or.inl rfl⟩
  · intro point bits in_pos out_pos adler total_out
    cases hlast : l.getLast? with
    | none =>
      have heq : zlib_fast_seek_add_list l point bits in_pos out_pos adler total_out = l := by
        unfold zlib_fast_seek_add_list
        rw [hlast]
      rw [heq]
      exact ⟨hs, Or.inl rfl⟩
    | some item =>
      by_cases hcmp : item.out + SPAN < out_pos
      · have hout : item.out < out_pos := by
          have hspan : (0 : Int) < SPAN := by decide
          omega
        have heq : zlib_fast_seek_add_list l point bits in_pos out_pos adler total_out =
            l ++ [{ out := out_pos, inp := in_pos, compression := .ZLIB
                  , zbits := bits
                  , zwindow := if point.pos ≠ 0 then
                      point.window.drop point.pos ++ point.window.take point.pos
                    else point.window
                  , zadler := adler % 4294967296
                  , ztotal_out := total_out % 4294967296 }] := by
          unfold zlib_fast_seek_add_list
          rw [hlast]
          simp only [if_pos hcmp]
        rw [heq]
        refine ⟨?_, Or.inr ⟨_, rfl, rfl, ?_⟩⟩
        · refine sortedOut_append l _ hs (fun last hl2 => ?_)
          rw [hlast] at hl2
          injection hl2 with h2
          exact h2 ▸ hout
        · intro last hl2
          injection hl2 with h2
          exact h2 ▸ hout
      · have heq : zlib_fast_seek_add_list l point bits in_pos out_pos adler total_out = l := by
          unfold zlib_fast_seek_add_list
          rw [hlast]
          simp only [if_neg hcmp]
        rw [heq]
        exact ⟨hs, Or.inl rfl⟩

/-! ### Frame lemmas: fields untouched by the producing layer -/

/-- fields of the reader that the output-producing layer (everything up
to fill_out_buffer) never changes. -/
def Frame (s s1 : Reader) : Prop :=
  s1.pos = s.pos ∧ s1.seek_pending = s.seek_pending ∧ s1.skip = s.skip ∧
  s1.dont_check_crc = s.dont_check_crc ∧ s1.size = s.size ∧ s1.start = s.start

lemma frame_refl (s : Reader) : Frame s s := ⟨rfl, rfl, rfl, rfl, rfl, rfl⟩

lemma frame_trans {a b c : Reader} (h1 : Frame a b) (h2 : Frame b c) :
    Frame a c :=
  ⟨h2.1.trans h1.1, h2.2.1.trans h1.2.1, h2.2.2.1.trans h1.2.2.1,
   h2.2.2.2.1.trans h1.2.2.2.1, h2.2.2.2.2.1.trans h1.2.2.2.2.1,
   h2.2.2.2.2.2.trans h1.2.2.2.2.2⟩

lemma buf_read_frame (s : Reader) (buf : Buf) : Frame s (buf_read s buf).1 := by
  unfold buf_read
  exact ⟨rfl, rfl, rfl, rfl, rfl, rfl⟩

lemma buf_read_err (s : Reader) (buf : Buf) : (buf_read s buf).1.err = s.err := rfl

lemma fill_in_frame (s : Reader) : Frame s (fill_in_buffer s).1 := by
  unfold fill_in_buffer
  split
  · exact frame_refl s
  · split
    · exact buf_read_frame s s.inb
    · exact frame_refl s

lemma fill_in_err (s : Reader) : (fill_in_buffer s).1.err = s.err := by
  unfold fill_in_buffer
  split
  · rfl
  · split
    · exact buf_read_err s s.inb
    · rfl

lemma fill_in_neg_iff (s : Reader) : (fill_in_buffer s).2 = -1 ↔ s.err ≠ 0 := by
  unfold fill_in_buffer
  split
  · simp_all
  · split <;> simp_all

lemma fill_in_neg_eq (s : Reader) (h : (fill_in_buffer s).2 = -1) :
    (fill_in_buffer s).1 = s := by
  unfold fill_in_buffer at h ⊢
  split at h
  · simp_all
  · split at h <;> simp_all

lemma GZ_GETC_frame (s : Reader) : Frame s (GZ_GETC s).1 := by
  unfold GZ_GETC
  dsimp only []
  split
  · split
    · exact fill_in_frame s
    · split
      · exact fill_in_frame s
      · exact fill_in_frame s
  · exact frame_refl s

lemma GZ_GETC_err (s : Reader) : (GZ_GETC s).1.err = s.err := by
  unfold GZ_GETC
  dsimp only []
  split
  · split
    · exact fill_in_err s
    · split
      · exact fill_in_err s
      · exact fill_in_err s
  · rfl

lemma short_read_frame (s : Reader) : Frame s (short_read s) := by
  unfold short_read
  split
  · exact ⟨rfl, rfl, rfl, rfl, rfl, rfl⟩
  · exact frame_refl s

lemma short_read_err (s : Reader) : (short_read s).err ≠ 0 := by
  unfold short_read
  split
  · simp [WTAP_ERR_SHORT_READ]
  · assumption

lemma gz_next1_frame (s : Reader) : Frame s (gz_next1 s).1 := by
  unfold gz_next1
  dsimp only []
  split
  · exact frame_trans (GZ_GETC_frame s) (short_read_frame _)
  · exact GZ_GETC_frame s

lemma gz_next1_none_err (s : Reader) (h : (gz_next1 s).2 = none) :
    (gz_next1 s).1.err ≠ 0 := by
  unfold gz_next1 at h ⊢
  dsimp only [] at h ⊢
  by_cases hc : (GZ_GETC s).2 = -1
  · rw [if_pos hc]
    exact short_read_err _
  · rw [if_neg hc] at h
    simp at h

lemma gz_next1_some_err (s : Reader) (v : Nat) (h : (gz_next1 s).2 = some v) :
    (gz_next1 s).1.err = s.err := by
  unfold gz_next1 at h ⊢
  dsimp only [] at h ⊢
  by_cases hc : (GZ_GETC s).2 = -1
  · rw [if_pos hc] at h
    simp at h
  · rw [if_neg hc]
    exact GZ_GETC_err s

lemma gz_next2_frame (s : Reader) : Frame s (gz_next2 s).1 := by
  unfold gz_next2
  dsimp only []
  have h1 := GZ_GETC_frame s
  have h2 := GZ_GETC_frame (GZ_GETC s).1
  split
  · exact frame_trans (frame_trans h1 h2) (short_read_frame _)
  · exact frame_trans h1 h2

lemma gz_next4_frame (s : Reader) : Frame s (gz_next4 s).1 := by
  unfold gz_next4
  dsimp only []
  have h1 := GZ_GETC_frame s
  have h2 := GZ_GETC_frame (GZ_GETC s).1
  have h3 := GZ_GETC_frame (GZ_GETC (GZ_GETC s).1).1
  have h4 := GZ_GETC_frame (GZ_GETC (GZ_GETC (GZ_GETC s).1).1).1
  have h14 := frame_trans (frame_trans h1 h2) (frame_trans h3 h4)
  split
  · exact frame_trans h14 (short_read_frame _)
  · exact h14

lemma gz_next4_some_err (s : Reader) (v : Nat) (h : (gz_next4 s).2 = some v) :
    (gz_next4 s).1.err = s.err := by
  unfold gz_next4 at h ⊢
  dsimp only [] at h ⊢
  by_cases hc : (GZ_GETC (GZ_GETC (GZ_GETC (GZ_GETC s).1).1).1).2 = -1
  · rw [if_pos hc] at h
    simp at h
  · rw [if_neg hc]
    dsimp only []
    rw [GZ_GETC_err, GZ_GETC_err, GZ_GETC_err, GZ_GETC_err]

lemma gz_skipn_frame (s : Reader) (n : Nat) : Frame s (gz_skipn s n).1 := by
  induction n generalizing s with
  | zero => exact frame_refl s
  | succ n ih =>
    unfold gz_skipn
    dsimp only []
    split
    · exact frame_trans (GZ_GETC_frame s) (short_read_frame _)
    · exact frame_trans (GZ_GETC_frame s) (ih _)

lemma gz_skipzstr_frame (fuel : Nat) (s s1 : Reader) (r : Int)
    (h : gz_skipzstr fuel s = some (s1, r)) : Frame s s1 := by
  induction fuel generalizing s with
  | zero => simp [gz_skipzstr] at h
  | succ fuel ih =>
    unfold gz_skipzstr at h
    dsimp only [] at h
    split at h
    · exact frame_trans (GZ_GETC_frame s) (ih _ h)
    · split at h
      · rw [Option.some.injEq, Prod.mk.injEq] at h
        rw [← h.1]
        exact frame_trans (GZ_GETC_frame s) (short_read_frame _)
      · rw [Option.some.injEq, Prod.mk.injEq] at h
        rw [← h.1]
        exact GZ_GETC_frame s

lemma gz_next2_none_err (s : Reader) (h : (gz_next2 s).2 = none) :
    (gz_next2 s).1.err ≠ 0 := by
  unfold gz_next2 at h ⊢
  dsimp only [] at h ⊢
  by_cases hc : (GZ_GETC (GZ_GETC s).1).2 = -1
  · rw [if_pos hc]
    exact short_read_err _
  · rw [if_neg hc] at h
    simp at h

lemma gz_skipn_neg_err (s : Reader) (n : Nat) (h : (gz_skipn s n).2 = -1) :
    (gz_skipn s n).1.err ≠ 0 := by
  induction n generalizing s with
  | zero => simp [gz_skipn] at h
  | succ n ih =>
    unfold gz_skipn at h ⊢
    dsimp only [] at h ⊢
    by_cases hc : (GZ_GETC s).2 = -1
    · rw [if_pos hc]
      exact short_read_err _
    · rw [if_neg hc] at h ⊢
      exact ih _ h

lemma gz_skipzstr_neg_err (fuel : Nat) (s s1 : Reader)
    (h : gz_skipzstr fuel s = some (s1, -1)) : s1.err ≠ 0 := by
  induction fuel generalizing s with
  | zero => simp [gz_skipzstr] at h
  | succ fuel ih =>
    unfold gz_skipzstr at h
    dsimp only [] at h
    split at h
    · exact ih _ h
    · split at h
      · rw [Option.some.injEq, Prod.mk.injEq] at h
        rw [← h.1]
        exact short_read_err _
      · rw [Option.some.injEq, Prod.mk.injEq] at h
        exact absurd h.2 (by simp)

/-- the post-inflate processing leaves the frame fields untouched. -/
lemma zlib_read_after_inflate_frame (be : ZlibBackend) (s1 : Reader)
    (res : InflateResult) (avail_out count : Nat) :
    Frame s1 (zlib_read_after_inflate be s1 res avail_out count).state := by
  unfold zlib_read_after_inflate
  dsimp only []
  split
  · exact frame_refl _
  · split
    · exact frame_refl _
    · split
      · exact frame_refl _
      · split
        · exact frame_refl _
        · split
          · exact frame_refl _
          · split
            · split
              · exact frame_refl _
              · exact frame_refl _
            · exact frame_refl _

/-- one zlib_read iteration leaves the frame fields untouched. -/
lemma zlib_read_body_frame (be : ZlibBackend) (s : Reader) (avail_out count : Nat) :
    Frame s (zlib_read_body be s avail_out count).state := by
  unfold zlib_read_body
  dsimp only []
  by_cases ha : s.inb.avail = 0
  · rw [if_pos ha]
    split
    · exact fill_in_frame s
    · split
      · exact fill_in_frame s
      · exact frame_trans (fill_in_frame s)
          (zlib_read_after_inflate_frame be _ _ avail_out count)
  · rw [if_neg ha]
    dsimp only []
    rw [if_neg (by decide : ¬ ((0 : Int) = -1)), if_neg ha]
    exact zlib_read_after_inflate_frame be _ _ avail_out count

lemma zlib_read_loop_frame (be : ZlibBackend) (fuel : Nat) :
    ∀ (s : Reader) (produced : List Nat) (avail_out : Nat) (ret : Int)
      (count : Nat) (res : Reader × List Nat × Nat × Int),
      zlib_read_loop be fuel s produced avail_out ret count = some res →
      Frame s res.1 := by
  induction fuel with
  | zero => intro s produced avail_out ret count res h; simp [zlib_read_loop] at h
  | succ fuel ih =>
    intro s produced avail_out ret count res h
    unfold zlib_read_loop at h
    have hb := zlib_read_body_frame be s avail_out count
    rcases hstep : zlib_read_body be s avail_out count with s1 | ⟨s1, ret1⟩ | ⟨s1, producedNow, ret1⟩ <;>
      rw [hstep] at h hb <;> dsimp only [ZlibStep.state] at hb
    · cases h; exact hb
    · cases h; exact hb
    · dsimp only [] at h
      split at h
      · exact frame_trans hb (ih _ _ _ _ _ _ h)
      · cases h; exact hb

lemma zlib_trailer_verify_frame (s : Reader) : Frame s (zlib_trailer_verify s) := by
  unfold zlib_trailer_verify
  have hf1 := gz_next4_frame s
  generalize hq1 : gz_next4 s = q1 at hf1 ⊢
  have hf2 := gz_next4_frame q1.1
  generalize hq2 : gz_next4 q1.1 = q2 at hf2 ⊢
  have h12 := frame_trans hf1 hf2
  rcases h1 : q1.2 with _ | crc
  · exact hf1
  · rcases h2 : q2.2 with _ | len
    · exact h12
    · dsimp only []
      split
      · exact h12
      · split
        · exact h12
        · exact h12

lemma zlib_trailer_postlude_frame (s : Reader) :
    Frame s (zlib_trailer_postlude s) := ⟨rfl, rfl, rfl, rfl, rfl, rfl⟩

lemma zlib_check_trailer_frame (s : Reader) : Frame s (zlib_check_trailer s) :=
  frame_trans (zlib_trailer_verify_frame s) (zlib_trailer_postlude_frame _)

lemma zlib_read_frame (be : ZlibBackend) (fuel : Nat) (s : Reader)
    (count : Nat) (s1 : Reader) (h : zlib_read be fuel s count = some s1) :
    Frame s s1 := by
  unfold zlib_read at h
  rcases hloop : zlib_read_loop be fuel s [] count 0 count with _ | res
  · rw [hloop] at h; simp at h
  · rw [hloop] at h
    have hf := zlib_read_loop_frame be fuel s [] count 0 count res hloop
    obtain ⟨sl, produced, availout, ret⟩ := res
    dsimp only [] at h hf
    have hmid : Frame s { sl with out := { content := produced, next := 0 } } :=
      ⟨hf.1, hf.2.1, hf.2.2.1, hf.2.2.2.1, hf.2.2.2.2.1, hf.2.2.2.2.2⟩
    split at h
    · cases h
      exact frame_trans hmid (zlib_check_trailer_frame _)
    · cases h
      exact hmid

lemma fast_seek_header_frame (s : Reader) (in_pos out_pos : Int)
    (c : Compression) : Frame s (fast_seek_header s in_pos out_pos c) := by
  unfold fast_seek_header
  split
  · exact frame_refl s
  · exact ⟨rfl, rfl, rfl, rfl, rfl, rfl⟩

lemma gz_header_setup_frame (be : ZlibBackend) (s : Reader) :
    Frame s (gz_header_setup be s) := by
  unfold gz_header_setup
  dsimp only []
  split
  · exact ⟨rfl, rfl, rfl, rfl, rfl, rfl⟩
  · exact fast_seek_header_frame _ _ _ _

lemma gz_hdr_extra_field_frame (s : Reader) : Frame s (gz_hdr_extra_field s).1 := by
  unfold gz_hdr_extra_field
  split
  · exact gz_next2_frame s
  · exact frame_trans (gz_next2_frame s) (gz_skipn_frame _ _)

lemma gz_hdr_hcrc_frame (s : Reader) : Frame s (gz_hdr_hcrc s).1 := by
  unfold gz_hdr_hcrc
  split
  · exact gz_next2_frame s
  · exact gz_next2_frame s

lemma gz_header_extra_frame (be : ZlibBackend) (fuel : Nat) (s : Reader)
    (flags : Nat) (s1 : Reader) (r : Int)
    (h : gz_header_extra be fuel s flags = some (s1, r)) : Frame s s1 := by
  unfold gz_header_extra at h
  dsimp only [] at h
  set q1 := (if flags &&& 4 ≠ 0 then gz_hdr_extra_field s else (s, 0)) with hq1def
  have hp1 : Frame s q1.1 := by
    rw [hq1def]
    split
    · exact gz_hdr_extra_field_frame s
    · exact frame_refl s
  split at h
  · cases h; exact hp1
  · set q2 := (if flags &&& 8 ≠ 0 then gz_skipzstr fuel q1.1 else some (q1.1, 0)) with hq2def
    rcases hx2 : q2 with _ | p2
    · rw [hx2] at h; simp at h
    · rw [hx2] at h
      dsimp only [] at h
      have hp2 : Frame s p2.1 := by
        rw [hq2def] at hx2
        split at hx2
        · exact frame_trans hp1 (gz_skipzstr_frame _ _ p2.1 p2.2 (by rw [hx2]))
        · cases hx2; exact hp1
      split at h
      · cases h; exact hp2
      · set q3 := (if flags &&& 16 ≠ 0 then gz_skipzstr fuel p2.1 else some (p2.1, 0)) with hq3def
        rcases hx3 : q3 with _ | p3
        · rw [hx3] at h; simp at h
        · rw [hx3] at h
          dsimp only [] at h
          have hp3 : Frame s p3.1 := by
            rw [hq3def] at hx3
            split at hx3
            · exact frame_trans hp2 (gz_skipzstr_frame _ _ p3.1 p3.2 (by rw [hx3]))
            · cases hx3; exact hp2
          split at h
          · cases h; exact hp3
          · set q4 := (if flags &&& 2 ≠ 0 then gz_hdr_hcrc p3.1 else (p3.1, 0)) with hq4def
            have hp4 : Frame s q4.1 := by
              rw [hq4def]
              split
              · exact frame_trans hp3 (gz_hdr_hcrc_frame _)
              · exact hp3
            split at h
            · cases h; exact hp4
            · cases h; exact frame_trans hp4 (gz_header_setup_frame be _)

lemma in_consume1_frame (s : Reader) : Frame s (in_consume1 s) :=
  ⟨rfl, rfl, rfl, rfl, rfl, rfl⟩

lemma in_unget1_frame (s : Reader) : Frame s (in_unget1 s) :=
  ⟨rfl, rfl, rfl, rfl, rfl, rfl⟩

lemma gz_hdr_extra_field_neg_err (s : Reader)
    (h : (gz_hdr_extra_field s).2 = -1) : (gz_hdr_extra_field s).1.err ≠ 0 := by
  unfold gz_hdr_extra_field at h ⊢
  rcases h2 : (gz_next2 s).2 with _ | len
  · exact gz_next2_none_err s h2
  · rw [h2] at h
    dsimp only [] at h ⊢
    exact gz_skipn_neg_err _ _ h

lemma gz_hdr_hcrc_neg_err (s : Reader)
    (h : (gz_hdr_hcrc s).2 = -1) : (gz_hdr_hcrc s).1.err ≠ 0 := by
  unfold gz_hdr_hcrc at h ⊢
  rcases h2 : (gz_next2 s).2 with _ | v
  · exact gz_next2_none_err s h2
  · rw [h2] at h
    simp at h

lemma gz_header_extra_neg_err (be : ZlibBackend) (fuel : Nat) (s : Reader)
    (flags : Nat) (s1 : Reader)
    (h : gz_header_extra be fuel s flags = some (s1, -1)) : s1.err ≠ 0 := by
  unfold gz_header_extra at h
  dsimp only [] at h
  set q1 := (if flags &&& 4 ≠ 0 then gz_hdr_extra_field s else (s, 0)) with hq1def
  split at h
  · next hneg =>
    cases h
    rw [hq1def] at hneg ⊢
    by_cases hbit : flags &&& 4 ≠ 0
    · rw [if_pos hbit] at hneg ⊢
      exact gz_hdr_extra_field_neg_err s hneg
    · rw [if_neg hbit] at hneg
      simp at hneg
  · rcases hx2 : (if flags &&& 8 ≠ 0 then gz_skipzstr fuel q1.1 else some (q1.1, 0))
      with _ | p2
    · rw [hx2] at h; simp at h
    · rw [hx2] at h
      dsimp only [] at h
      split at h
      · next hneg =>
        cases h
        split at hx2
        · have : p2 = (p2.1, p2.2) := rfl
          rw [this, hneg] at hx2
          exact gz_skipzstr_neg_err _ _ _ hx2
        · cases hx2; simp at hneg
      · rcases hx3 : (if flags &&& 16 ≠ 0 then gz_skipzstr fuel p2.1 else some (p2.1, 0))
          with _ | p3
        · rw [hx3] at h; simp at h
        · rw [hx3] at h
          dsimp only [] at h
          split at h
          · next hneg =>
            cases h
            split at hx3
            · have : p3 = (p3.1, p3.2) := rfl
              rw [this, hneg] at hx3
              exact gz_skipzstr_neg_err _ _ _ hx3
            · cases hx3; simp at hneg
          · set q4 := (if flags &&& 2 ≠ 0 then gz_hdr_hcrc p3.1 else (p3.1, 0)) with hq4def
            split at h
            · next hneg =>
              cases h
              rw [hq4def] at hneg ⊢
              by_cases hbit : flags &&& 2 ≠ 0
              · rw [if_pos hbit] at hneg ⊢
                exact gz_hdr_hcrc_neg_err _ hneg
              · rw [if_neg hbit] at hneg
                simp at hneg
            · cases h

lemma gz_header_rest_step (be : ZlibBackend) (fuel : Nat) (s : Reader)
    (s1 : Reader) (r : Int)
    (h : gz_header_rest be fuel s = some (s1, r)) :
    Frame s s1 ∧ (r = -1 → s1.err ≠ 0) := by
  unfold gz_header_rest at h
  dsimp only [] at h
  have hcmf := gz_next1_frame s
  rcases hcm : (gz_next1 s).2 with _ | cm
  · rw [hcm] at h
    cases h
    exact ⟨hcmf, fun _ => gz_next1_none_err s (by rw [hcm])⟩
  · rw [hcm] at h
    dsimp only [] at h
    generalize hgq : (gz_next1 s).1 = scm at h hcmf
    split at h
    · cases h
      refine ⟨hcmf, fun _ => ?_⟩
      simp [WTAP_ERR_DECOMPRESS]
    · have hflf := gz_next1_frame scm
      rcases hfl : (gz_next1 scm).2 with _ | flags
      · rw [hfl] at h
        cases h
        exact ⟨frame_trans hcmf hflf,
               fun _ => gz_next1_none_err scm (by rw [hfl])⟩
      · rw [hfl] at h
        dsimp only [] at h
        generalize hgq2 : (gz_next1 scm).1 = sfl at h hflf
        have h01 := frame_trans hcmf hflf
        split at h
        · cases h
          refine ⟨h01, fun _ => ?_⟩
          simp [WTAP_ERR_DECOMPRESS]
        · have hmtf := gz_skipn_frame sfl 4
          generalize hgq3 : gz_skipn sfl 4 = pmt at h hmtf
          have h02 := frame_trans h01 hmtf
          split at h
          · cases h
            refine ⟨h02, fun _ => ?_⟩
            have := gz_skipn_neg_err sfl 4
            rw [hgq3] at this
            next hneg _ => exact this hneg
          · have hxff := gz_skipn_frame pmt.1 1
            generalize hgq4 : gz_skipn pmt.1 1 = pxf at h hxff
            have h03 := frame_trans h02 hxff
            split at h
            · cases h
              refine ⟨h03, fun _ => ?_⟩
              have := gz_skipn_neg_err pmt.1 1
              rw [hgq4] at this
              next hneg _ => exact this hneg
            · have hosf := gz_skipn_frame pxf.1 1
              generalize hgq5 : gz_skipn pxf.1 1 = pos1 at h hosf
              have h04 := frame_trans h03 hosf
              split at h
              · cases h
                refine ⟨h04, fun _ => ?_⟩
                have := gz_skipn_neg_err pxf.1 1
                rw [hgq5] at this
                next hneg _ => exact this hneg
              · exact ⟨frame_trans h04 (gz_header_extra_frame be fuel pos1.1 flags s1 r h),
                       fun hr => gz_header_extra_neg_err be fuel pos1.1 flags s1 (hr ▸ h)⟩

lemma gz_head_detect_step (s s1 : Reader) (r : Int)
    (h : gz_head_detect s = some (s1, r)) :
    Frame s s1 ∧ (r = -1 → s1.err ≠ 0) := by
  unfold gz_head_detect at h
  dsimp only [] at h
  split at h
  · cases h
    exact ⟨⟨rfl, rfl, rfl, rfl, rfl, rfl⟩,
           fun _ => by simp [WTAP_ERR_DECOMPRESSION_NOT_SUPPORTED]⟩
  · split at h
    · cases h
      exact ⟨⟨rfl, rfl, rfl, rfl, rfl, rfl⟩,
             fun _ => by simp [WTAP_ERR_DECOMPRESSION_NOT_SUPPORTED]⟩
    · have hfs := fast_seek_header_frame s (s.raw_pos - s.inb.avail - s.out.avail)
        s.pos Compression.UNCOMPRESSED
      generalize hg : fast_seek_header s (s.raw_pos - s.inb.avail - s.out.avail)
        s.pos Compression.UNCOMPRESSED = t at h hfs
      split at h
      · cases h
        exact ⟨⟨hfs.1, hfs.2.1, hfs.2.2.1, hfs.2.2.2.1, hfs.2.2.2.2.1, hfs.2.2.2.2.2⟩,
               fun hr => absurd hr (by simp)⟩
      · cases h
        exact ⟨⟨hfs.1, hfs.2.1, hfs.2.2.1, hfs.2.2.2.1, hfs.2.2.2.2.1, hfs.2.2.2.2.2⟩,
               fun hr => absurd hr (by simp)⟩

lemma gz_head_main_step (be : ZlibBackend) (fuel : Nat) (s s1 : Reader) (r : Int)
    (h : gz_head_main be fuel s = some (s1, r)) :
    Frame s s1 ∧ (r = -1 → s1.err ≠ 0) := by
  unfold gz_head_main at h
  dsimp only [] at h
  split at h
  · have hca := in_consume1_frame s
    generalize hg1 : in_consume1 s = sA at h hca
    have hpf : Frame sA (if sA.inb.avail = 0 then fill_in_buffer sA else (sA, 0)).1 := by
      split
      · exact fill_in_frame sA
      · exact frame_refl sA
    have hpferr : (if sA.inb.avail = 0 then fill_in_buffer sA else (sA, 0)).2 = -1 →
        (if sA.inb.avail = 0 then fill_in_buffer sA else (sA, 0)).1.err ≠ 0 := by
      split
      · intro hx
        rw [fill_in_err]
        exact (fill_in_neg_iff sA).mp hx
      · intro hx
        simp at hx
    generalize hg2 : (if sA.inb.avail = 0 then fill_in_buffer sA else (sA, 0)) = pf
      at h hpf hpferr
    have hAf := frame_trans hca hpf
    split at h
    · cases h
      exact ⟨hAf, fun hr => hpferr (by assumption)⟩
    · split at h
      · split at h
        · have hcb := in_consume1_frame pf.1
          generalize hg3 : in_consume1 pf.1 = sB2 at h hcb
          have := gz_header_rest_step be fuel sB2 s1 r h
          exact ⟨frame_trans (frame_trans hAf hcb) this.1, this.2⟩
        · have hub := in_unget1_frame pf.1
          generalize hg4 : in_unget1 pf.1 = sB3 at h hub
          have := gz_head_detect_step sB3 s1 r h
          exact ⟨frame_trans (frame_trans hAf hub) this.1, this.2⟩
      · have := gz_head_detect_step pf.1 s1 r h
        exact ⟨frame_trans hAf this.1, this.2⟩
  · have := gz_head_detect_step s s1 r h
    exact this

lemma gz_head_step (be : ZlibBackend) (fuel : Nat) (s s1 : Reader) (r : Int)
    (h : gz_head be fuel s = some (s1, r)) :
    Frame s s1 ∧ (r = -1 → s1.err ≠ 0) := by
  unfold gz_head at h
  dsimp only [] at h
  split at h
  · have hpf := fill_in_frame s
    have hpfe := fill_in_neg_iff s
    have hpferr := fill_in_err s
    generalize hg : fill_in_buffer s = pf at h hpf hpfe hpferr
    split at h
    · cases h
      refine ⟨hpf, fun _ => ?_⟩
      rw [hpferr]
      exact hpfe.mp (by assumption)
    · split at h
      · cases h
        exact ⟨hpf, fun hr => absurd hr (by simp)⟩
      · have := gz_head_main_step be fuel pf.1 s1 r h
        exact ⟨frame_trans hpf this.1, this.2⟩
  · exact gz_head_main_step be fuel s s1 r h

lemma fill_out_rest_step (be : ZlibBackend) (fuel : Nat) (s s1 : Reader) (r : Int)
    (h : fill_out_rest be fuel s = some (s1, r)) :
    Frame s s1 ∧ r = 0 := by
  unfold fill_out_rest at h
  dsimp only [] at h
  split at h
  · cases h
    have := buf_read_frame s s.out
    exact ⟨⟨this.1, this.2.1, this.2.2.1, this.2.2.2.1, this.2.2.2.2.1, this.2.2.2.2.2⟩, rfl⟩
  · split at h
    · rcases hz : zlib_read be fuel s (s.size * 2) with _ | sz
      · rw [hz] at h; simp at h
      · rw [hz] at h
        cases h
        exact ⟨zlib_read_frame be fuel s _ _ hz, rfl⟩
    · cases h
      exact ⟨frame_refl s, rfl⟩

lemma fill_out_buffer_step (be : ZlibBackend) (fuel : Nat) (s s1 : Reader) (r : Int)
    (h : fill_out_buffer be fuel s = some (s1, r)) :
    Frame s s1 ∧ (r = -1 → s1.err ≠ 0) := by
  unfold fill_out_buffer at h
  split at h
  · rcases hgh : gz_head be fuel s with _ | p
    · rw [hgh] at h; simp at h
    · rw [hgh] at h
      dsimp only [] at h
      have hstep := gz_head_step be fuel s p.1 p.2 (by rw [hgh])
      split at h
      · cases h
        exact ⟨hstep.1, fun hr => hstep.2 (by assumption)⟩
      · split at h
        · cases h
          exact ⟨hstep.1, fun hr => absurd hr (by simp)⟩
        · have := fill_out_rest_step be fuel p.1 s1 r h
          exact ⟨frame_trans hstep.1 this.1, fun hr => absurd (this.2 ▸ hr) (by simp)⟩
  · have := fill_out_rest_step be fuel s s1 r h
    exact ⟨this.1, fun hr => absurd (this.2 ▸ hr) (by simp)⟩

/-- fields preserved by gz_skip and the file_read copy loop (which do
advance pos). -/
def SkipFrame (s s1 : Reader) : Prop :=
  s1.seek_pending = s.seek_pending ∧ s1.skip = s.skip ∧
  s1.dont_check_crc = s.dont_check_crc ∧ s1.size = s.size ∧ s1.start = s.start

lemma skipFrame_refl (s : Reader) : SkipFrame s s := ⟨rfl, rfl, rfl, rfl, rfl⟩

lemma skipFrame_trans {a b c : Reader} (h1 : SkipFrame a b) (h2 : SkipFrame b c) :
    SkipFrame a c :=
  ⟨h2.1.trans h1.1, h2.2.1.trans h1.2.1, h2.2.2.1.trans h1.2.2.1,
   h2.2.2.2.1.trans h1.2.2.2.1, h2.2.2.2.2.trans h1.2.2.2.2⟩

lemma frame_skipFrame {a b : Reader} (h : Frame a b) : SkipFrame a b :=
  ⟨h.2.1, h.2.2.1, h.2.2.2.1, h.2.2.2.2.1, h.2.2.2.2.2⟩

/-- gz_skip: behaviour summary.  It never touches the pending-seek
fields, reports -1 only with a sticky error set, and on a 0 return
either skipped exactly len bytes or stopped at a clean end of input
with nothing buffered. -/
lemma gz_skip_step (be : ZlibBackend) (fuel : Nat) :
    ∀ (s : Reader) (len : Int) (s1 : Reader) (rr : Int), 0 ≤ len →
      gz_skip be fuel s len = some (s1, rr) →
      (rr = 0 ∨ rr = -1) ∧
      SkipFrame s s1 ∧ (rr = -1 → s1.err ≠ 0) ∧
      (rr = 0 → s1.pos ≤ s.pos + len ∧
        (s1.pos = s.pos + len ∨
         (s1.out.avail = 0 ∧ s1.eof = true ∧ s1.inb.avail = 0 ∧ s1.err = 0))) := by
  induction fuel with
  | zero => intro s len s1 rr _ h; simp [gz_skip] at h
  | succ fuel ih =>
    intro s len s1 rr hlen h
    unfold gz_skip at h
    dsimp only [] at h
    split at h
    · next hlen0 =>
      split at h
      · next havail =>
        set n := (if (s.out.avail : Int) > len then len.toNat else s.out.avail) with hn
        have hnle : (n : Int) ≤ len := by
          rw [hn]
          split
          · omega
          · omega
        have hrec := ih _ (len - n) s1 rr (by omega) h
        refine ⟨hrec.1, skipFrame_trans (skipFrame_refl _) hrec.2.1, hrec.2.2.1,
                fun hr => ?_⟩
        have h3 := hrec.2.2.2 hr
        dsimp only [] at h3
        constructor
        · omega
        · rcases h3.2 with heq | hstop
          · left; omega
          · right; exact hstop
      · split at h
        · next herr =>
          cases h
          exact ⟨Or.inr rfl, skipFrame_refl s, fun _ => herr,
                 fun hr => absurd hr (by simp)⟩
        · split at h
          · next heofin =>
            next herr =>
            cases h
            refine ⟨Or.inl rfl, skipFrame_refl s, fun hr => absurd hr (by simp),
                    fun _ => ?_⟩
            refine ⟨by omega, Or.inr ?_⟩
            next havail =>
            refine ⟨by omega, heofin.1, heofin.2, by omega⟩
          · rcases hfo : fill_out_buffer be fuel s with _ | p
            · rw [hfo] at h; simp at h
            · rw [hfo] at h
              dsimp only [] at h
              have hstep := fill_out_buffer_step be fuel s p.1 p.2 (by rw [hfo])
              split at h
              · cases h
                exact ⟨Or.inr rfl, frame_skipFrame hstep.1,
                       fun _ => hstep.2 (by assumption),
                       fun hr => absurd hr (by simp)⟩
              · have hrec := ih _ len s1 rr hlen h
                refine ⟨hrec.1, skipFrame_trans (frame_skipFrame hstep.1) hrec.2.1,
                        hrec.2.2.1, fun hr => ?_⟩
                have h3 := hrec.2.2.2 hr
                rw [hstep.1.1] at h3
                exact h3
    · next hlen0 =>
      cases h
      have hlz : len = 0 := by omega
      refine ⟨Or.inl rfl, skipFrame_refl s, fun hr => absurd hr (by simp),
              fun _ => ?_⟩
      exact ⟨by omega, Or.inl (by omega)⟩

/-- gz_skip reports -1 only with a sticky error set (no sign condition
on len is needed for this part). -/
lemma gz_skip_neg_err (be : ZlibBackend) (fuel : Nat) :
    ∀ (s : Reader) (len : Int) (s1 : Reader),
      gz_skip be fuel s len = some (s1, -1) → s1.err ≠ 0 := by
  induction fuel with
  | zero => intro s len s1 h; simp [gz_skip] at h
  | succ fuel ih =>
    intro s len s1 h
    unfold gz_skip at h
    dsimp only [] at h
    split at h
    · split at h
      · exact ih _ _ _ h
      · split at h
        · next herr =>
          cases h
          exact herr
        · split at h
          · rw [Option.some.injEq, Prod.mk.injEq] at h
            exact absurd h.2 (by simp)
          · rcases hfo : fill_out_buffer be fuel s with _ | p
            · rw [hfo] at h; simp at h
            · rw [hfo] at h
              dsimp only [] at h
              have hstep := fill_out_buffer_step be fuel s p.1 p.2 (by rw [hfo])
              split at h
              · cases h
                exact hstep.2 (by assumption)
              · exact ih _ _ _ h
    · rw [Option.some.injEq, Prod.mk.injEq] at h
      exact absurd h.2 (by simp)

/-- the copy loop of file_read: never touches the pending-seek fields,
reports -1 only with a sticky error set, and otherwise returns the
total got count, advancing pos and the caller's buffer by exactly the
newly copied bytes. -/
lemma file_read_loop_step (be : ZlibBackend) (fuel : Nat) :
    ∀ (s : Reader) (len got : Nat) (copied : List Nat)
      (s1 : Reader) (ret : Int) (copied1 : List Nat),
      file_read_loop be fuel s len got copied = some (s1, ret, copied1) →
      SkipFrame s s1 ∧ (ret = -1 → s1.err ≠ 0) ∧
      (ret ≠ -1 → ∃ g : Nat, ret = (g : Int) ∧ got ≤ g ∧
        s1.pos = s.pos + ((g : Int) - (got : Int)) ∧
        copied1.length = copied.length + (g - got)) := by
  induction fuel with
  | zero => intro s len got copied s1 ret copied1 h; simp [file_read_loop] at h
  | succ fuel ih =>
    intro s len got copied s1 ret copied1 h
    unfold file_read_loop at h
    dsimp only [] at h
    split at h
    · next havail =>
      set n := (if s.out.avail > len then len else s.out.avail) with hn
      have hnavail : n ≤ s.out.avail := by
        rw [hn]; split
        · omega
        · omega
      have hblen : ((s.out.content.drop s.out.next).take n).length = n := by
        rw [List.length_take, List.length_drop]
        have : s.out.avail = s.out.content.length - s.out.next := rfl
        omega
      split at h
      · cases h
        refine ⟨skipFrame_refl _, fun hr => absurd hr (by push_cast; omega), fun _ => ?_⟩
        refine ⟨got + n, by simp, by omega, by dsimp only []; push_cast; ring, ?_⟩
        rw [List.length_append, hblen]
        omega
      · have hrec := ih _ _ _ _ _ _ _ h
        refine ⟨skipFrame_trans (skipFrame_refl _) hrec.1, hrec.2.1, fun hr => ?_⟩
        rcases hrec.2.2 hr with ⟨g, hg1, hg2, hg3, hg4⟩
        refine ⟨g, hg1, by omega, ?_, ?_⟩
        · dsimp only [] at hg3
          push_cast at hg3 ⊢
          omega
        · rw [List.length_append, hblen] at hg4
          omega
    · split at h
      · next herr =>
        cases h
        exact ⟨skipFrame_refl _, fun _ => herr, fun hr => absurd rfl hr⟩
      · split at h
        · cases h
          refine ⟨skipFrame_refl _, fun hr => absurd hr (by simp), fun _ => ?_⟩
          exact ⟨got, rfl, le_refl _, by omega, by omega⟩
        · rcases hfo : fill_out_buffer be fuel s with _ | p
          · rw [hfo] at h; simp at h
          · rw [hfo] at h
            dsimp only [] at h
            have hstep := fill_out_buffer_step be fuel s p.1 p.2 (by rw [hfo])
            split at h
            · cases h
              exact ⟨frame_skipFrame hstep.1, fun _ => hstep.2 (by assumption),
                     fun hr => absurd rfl hr⟩
            · have hrec := ih _ _ _ _ _ _ _ h
              refine ⟨skipFrame_trans (frame_skipFrame hstep.1) hrec.1,
                      hrec.2.1, fun hr => ?_⟩
              rcases hrec.2.2 hr with ⟨g, hg1, hg2, hg3, hg4⟩
              exact ⟨g, hg1, hg2, by rw [hstep.1.1] at hg3; exact hg3, hg4⟩

/-! ### Concrete instantiations used for witnesses and counterexamples -/

/-- a trivial backend instantiation for runs that never reach inflate
(its inflate reports a stream error if ever consulted). -/
def zlibStub : ZlibBackend :=
  { inflate := fun z _ _ => { ret := Z_STREAM_ERROR, consumed := 0, produced := [], strm := z }
  , crc32 := fun a _ => a
  , inflateReset := id
  , inflatePrime := fun z _ _ => z
  , inflateSetDictionary := fun z _ => z }

/-- a reader in the state the source itself produces right after
zlib_read hit the gzip trailer with a bad CRC: six decoded bytes are in
the output buffer and the deferred error is latched. -/
def c1state : Reader :=
  { file_fdopen { data := [], pos := 0 } 4096 with
    out := { content := [104, 101, 108, 108, 111, 10], next := 0 }
  , err := WTAP_ERR_DECOMPRESS
  , err_info := some ErrInfo.badCRC }

/-- C1 counterexample: on a reader holding 6 decoded bytes with a
deferred trailer error, file_read(buf, 16) copies the 6 bytes into the
caller's buffer and yet returns -1, not 6 — the error is reported even
though bytes were copied within this call. -/
theorem file_read_error_reporting_cex :
    (file_read zlibStub 4 c1state 16).map (fun p => (p.2.1, p.2.2)) =
      some (-1, [104, 101, 108, 108, 111, 10]) ∧
    [104, 101, 108, 108, 111, 10].length ≠ 0 := by
  constructor
  · rfl
  · simp

/-- C1 as amended: file_read returns -1 only with a sticky error set
(but possibly after copying bytes into the caller's buffer); any
non-negative return is exactly the number of bytes copied; and the
deferred-trailer behaviour holds in the form that when an error is
already latched with decoded bytes still buffered, a call that asks
for at most those bytes still receives them, with the error only hit
by a later call. -/
theorem file_read_error_reporting (be : ZlibBackend) (fuel : Nat) (s : Reader)
    (len : Nat) :
    (∀ s1 ret copied, file_read be fuel s len = some (s1, ret, copied) →
       (ret ≠ -1 → 0 ≤ ret ∧ ret = (copied.length : Int)) ∧
       (ret = -1 → s1.err ≠ 0)) ∧
    (s.err ≠ 0 → s.seek_pending = false → 0 < len → len ≤ s.out.avail → 0 < fuel →
       file_read be fuel s len =
         some ({ s with out := { s.out with next := s.out.next + len }
                      , pos := s.pos + len },
               (len : Int),
               (s.out.content.drop s.out.next).take len)) := by
  constructor
  · intro s1 ret copied h
    unfold file_read at h
    split at h
    · cases h
      exact ⟨fun _ => ⟨le_refl 0, by simp⟩, fun hr => absurd hr (by simp)⟩
    · split at h
      · rcases hgs : gz_skip be fuel { s with seek_pending := false } s.skip with _ | p
        · rw [hgs] at h; simp at h
        · rw [hgs] at h
          dsimp only [] at h
          split at h
          · next hneg =>
            cases h
            refine ⟨fun hr => absurd rfl hr, fun _ => ?_⟩
            exact gz_skip_neg_err be fuel _ s.skip p.1 (by rw [hgs, ← hneg])
          · have := file_read_loop_step be fuel p.1 len 0 [] s1 ret copied h
            refine ⟨fun hr => ?_, this.2.1⟩
            rcases this.2.2 hr with ⟨g, hg1, _, _, hg4⟩
            simp at hg4
            constructor
            · rw [hg1]; exact Int.ofNat_nonneg g
            · rw [hg1, hg4]
      · have := file_read_loop_step be fuel s len 0 [] s1 ret copied h
        refine ⟨fun hr => ?_, this.2.1⟩
        rcases this.2.2 hr with ⟨g, hg1, _, _, hg4⟩
        simp at hg4
        constructor
        · rw [hg1]; exact Int.ofNat_nonneg g
        · rw [hg1, hg4]
  · intro herr hsp hlen hle hfuel
    unfold file_read
    rw [if_neg (by omega), hsp]
    dsimp only []
    obtain ⟨f, rfl⟩ : ∃ f, fuel = f + 1 := ⟨fuel - 1, by omega⟩
    unfold file_read_loop
    dsimp only []
    rw [if_pos (by omega : s.out.avail ≠ 0)]
    have hn : (if s.out.avail > len then len else s.out.avail) = len := by
      split
      · rfl
      · omega
    rw [hn]
    rw [if_pos (by omega : len - len = 0)]
    simp [hsp]

/-- witness for the amended C1 theorem at a concrete input: the reader
of the counterexample, asked for exactly the 6 buffered bytes, does
receive them. -/
theorem file_read_error_reporting_witness :
    (c1state.err ≠ 0 ∧ c1state.seek_pending = false ∧ 0 < 6 ∧
     6 ≤ c1state.out.avail ∧ 0 < 4) ∧
    file_read zlibStub 4 c1state 6 =
      some ({ c1state with out := { c1state.out with next := c1state.out.next + 6 }
                         , pos := c1state.pos + 6 },
            (6 : Int),
            (c1state.out.content.drop c1state.out.next).take 6) :=
  ⟨⟨by decide, rfl, by decide, by decide, by decide⟩,
   (file_read_error_reporting zlibStub 4 c1state 6).2
     (by decide) rfl (by decide) (by decide) (by decide)⟩

/-- the copy loop, started at a clean exhausted stream, returns at once
with nothing further. -/
lemma file_read_loop_at_eof (be : ZlibBackend) (fuel : Nat) (s : Reader)
    (len got : Nat) (copied : List Nat)
    (h1 : s.out.avail = 0) (h2 : s.err = 0) (h3 : s.eof = true)
    (h4 : s.inb.avail = 0) (hfuel : 0 < fuel) :
    file_read_loop be fuel s len got copied = some (s, (got : Int), copied) := by
  obtain ⟨f, rfl⟩ : ∃ f, fuel = f + 1 := ⟨fuel - 1, by omega⟩
  unfold file_read_loop
  dsimp only []
  rw [if_neg (by omega), if_neg (by omega), if_pos ⟨h3, h4⟩]

/-- a fresh reader over an empty file carrying a deferred forward skip
of 100 bytes: the skip can never be honored. -/
def c2state : Reader :=
  { file_fdopen { data := [], pos := 0 } 4096 with
    seek_pending := true, skip := 100 }

/-- C2 counterexample: with a pending skip past end of stream, a read
returns 0 (a non-negative count) yet tell drops from 100 to 0, so
tell-before + got differs from tell-after. -/
theorem tell_read_additivity_cex :
    file_tell c2state = 100 ∧
    (file_read zlibStub 8 c2state 4).map (fun p => (p.2.1, file_tell p.1)) =
      some (0, 0) ∧
    (100 : Int) + 0 ≠ 0 := by
  refine ⟨rfl, ?_, by decide⟩
  rfl

/-- C2 as amended: tell-before + got = tell-after holds for every
non-failing read with no pending skip; with a pending (non-negative)
skip, tell-after is at most tell-before + got, with equality except
when the stream ends cleanly before the deferred skip completes (then
got = 0 and the reader is at end of file). -/
theorem tell_read_additivity (be : ZlibBackend) (fuel : Nat) (s : Reader)
    (len : Nat) (s1 : Reader) (ret : Int) (copied : List Nat)
    (h : file_read be fuel s len = some (s1, ret, copied))
    (hret : 0 ≤ ret)
    (hskip : s.seek_pending = true → 0 ≤ s.skip) :
    (s.seek_pending = false → file_tell s1 = file_tell s + ret) ∧
    file_tell s1 ≤ file_tell s + ret ∧
    (file_tell s1 = file_tell s + ret ∨
     (ret = 0 ∧ file_eof s1 = true ∧ s1.err = 0)) := by
  unfold file_read at h
  split at h
  · cases h
    refine ⟨fun _ => by omega, by omega, Or.inl (by omega)⟩
  · split at h
    · next hpend =>
      rcases hgs : gz_skip be fuel { s with seek_pending := false } s.skip with _ | p
      · rw [hgs] at h; simp at h
      · rw [hgs] at h
        dsimp only [] at h
        split at h
        · cases h
          exact absurd hret (by omega)
        · next hne =>
          have hsk := gz_skip_step be fuel { s with seek_pending := false } s.skip
            p.1 p.2 (hskip hpend) (by rw [hgs])
          have hp2 : p.2 = 0 := by
            rcases hsk.1 with h0 | hm1
            · exact h0
            · exact absurd hm1 hne
          have hfuelpos : 0 < fuel := by
            cases fuel with
            | zero => simp [file_read_loop] at h
            | succ f => omega
          have hloop := file_read_loop_step be fuel p.1 len 0 [] s1 ret copied h
          have hpend1 : s1.seek_pending = false := by
            rw [hloop.1.1, hsk.2.1.1]
          rcases (hsk.2.2.2 hp2).2 with hfull | hstop
          · -- the deferred skip was fully honored
            rcases hloop.2.2 (by omega) with ⟨g, hg1, _, hg3, _⟩
            have ht1 : file_tell s1 = s1.pos := by
              unfold file_tell
              rw [hpend1]
              simp
            have ht0 : file_tell s = s.pos + s.skip := by
              unfold file_tell
              rw [hpend]
              simp
            dsimp only [] at hfull
            refine ⟨fun hc => absurd hpend (by simp [hc]), ?_, Or.inl ?_⟩
            · rw [ht1, ht0, hg1, hg3, hfull]
              omega
            · rw [ht1, ht0, hg1, hg3, hfull]
              omega
          · -- the skip stopped at a clean end of stream
            have hexact := file_read_loop_at_eof be fuel p.1 len 0 []
              hstop.1 hstop.2.2.2 hstop.2.1 hstop.2.2.1 hfuelpos
            rw [hexact] at h
            rw [Option.some.injEq, Prod.mk.injEq] at h
            obtain ⟨hs1, hrest⟩ := h
            rw [Prod.mk.injEq] at hrest
            have hret0 : ret = 0 := by
              rw [← hrest.1]
              simp
            have hs1p : s1.pos = p.1.pos := by rw [← hs1]
            have hs1eof : file_eof s1 = true := by
              rw [← hs1]
              unfold file_eof
              rw [hstop.1, hstop.2.1, hstop.2.2.1]
              rfl
            have hs1err : s1.err = 0 := by
              rw [← hs1]
              exact hstop.2.2.2
            have ht1 : file_tell s1 = s1.pos := by
              unfold file_tell
              rw [hpend1]
              simp
            have ht0 : file_tell s = s.pos + s.skip := by
              unfold file_tell
              rw [hpend]
              simp
            have hle := (hsk.2.2.2 hp2).1
            dsimp only [] at hle
            refine ⟨fun hc => absurd hpend (by simp [hc]), ?_,
                    Or.inr ⟨hret0, hs1eof, hs1err⟩⟩
            rw [ht1, ht0, hret0, hs1p]
            omega
    · next hpend =>
      have hpendf : s.seek_pending = false := by
        cases hsp : s.seek_pending
        · rfl
        · exact absurd hsp hpend
      have hloop := file_read_loop_step be fuel s len 0 [] s1 ret copied h
      rcases hloop.2.2 (by omega) with ⟨g, hg1, _, hg3, _⟩
      have hpend1 : s1.seek_pending = false := by
        rw [hloop.1.1, hpendf]
      have ht1 : file_tell s1 = s1.pos := by
        unfold file_tell
        rw [hpend1]
        simp
      have ht0 : file_tell s = s.pos := by
        unfold file_tell
        rw [hpendf]
        simp
      refine ⟨fun _ => ?_, ?_, Or.inl ?_⟩
      · rw [ht1, ht0, hg1, hg3]
        simp
      · rw [ht1, ht0, hg1, hg3]
        simp
      · rw [ht1, ht0, hg1, hg3]
        simp

/-- concrete no-pending reader delivering two buffered bytes, for the
C2 witness. -/
def c2wit : Reader :=
  { file_fdopen { data := [], pos := 0 } 4096 with
    out := { content := [7, 8], next := 0 } }

def c2wit1 : Reader :=
  { c2wit with out := { c2wit.out with next := 2 }, pos := 2 }

/-- witness for the amended C2 theorem at a concrete input. -/
theorem tell_read_additivity_witness :
    (file_read zlibStub 3 c2wit 2 = some (c2wit1, 2, [7, 8]) ∧ (0 : Int) ≤ 2 ∧
     (c2wit.seek_pending = true → (0 : Int) ≤ c2wit.skip)) ∧
    ((c2wit.seek_pending = false → file_tell c2wit1 = file_tell c2wit + 2) ∧
     file_tell c2wit1 ≤ file_tell c2wit + 2 ∧
     (file_tell c2wit1 = file_tell c2wit + 2 ∨
      ((2 : Int) = 0 ∧ file_eof c2wit1 = true ∧ c2wit1.err = 0))) :=
  ⟨⟨by decide, by decide, fun _ => by decide⟩,
   tell_read_additivity zlibStub 3 c2wit 2 c2wit1 2 [7, 8]
     (by decide) (by decide) (fun _ => by decide)⟩

/-- C3: with dont_check_crc set (the .caz opt-in), at the end of a
deflate stream the trailer CRC is not checked — a mismatching CRC sets
no error — but a trailer length that differs from the decoder's total
output modulo 2^32 still sets WTAP_ERR_DECOMPRESS with the message
"length field wrong"; in either case the mode goes back to UNKNOWN and
the rolling-window state is released. -/
theorem caz_trailer_checks (s : Reader) (crc len : Nat) (s2 : Reader)
    (hdcc : s.dont_check_crc = true)
    (h1 : (gz_next4 s).2 = some crc)
    (h2 : (gz_next4 (gz_next4 s).1).2 = some len)
    (h2s : (gz_next4 (gz_next4 s).1).1 = s2) :
    (len = s2.strm.total_out % 4294967296 →
       zlib_check_trailer s =
         { s2 with compression := Compression.UNKNOWN, fast_seek_cur := none } ∧
       (zlib_check_trailer s).err = s.err) ∧
    (len ≠ s2.strm.total_out % 4294967296 →
       (zlib_check_trailer s).err = WTAP_ERR_DECOMPRESS ∧
       (zlib_check_trailer s).err_info = some ErrInfo.lengthFieldWrong) ∧
    (zlib_check_trailer s).compression = Compression.UNKNOWN ∧
    (zlib_check_trailer s).fast_seek_cur = none ∧
    ErrInfo.text ErrInfo.lengthFieldWrong = "length field wrong" := by
  have hferr : s2.err = s.err := by
    rw [← h2s, gz_next4_some_err _ _ h2, gz_next4_some_err _ _ h1]
  have hfr := frame_trans (gz_next4_frame s) (gz_next4_frame (gz_next4 s).1)
  rw [h2s] at hfr
  have hdcc2 : s2.dont_check_crc = true := by
    rw [hfr.2.2.2.1, hdcc]
  have hverify : zlib_trailer_verify s =
      (if crc ≠ s2.strm.adler ∧ s2.dont_check_crc = false then
         { s2 with err := WTAP_ERR_DECOMPRESS, err_info := some ErrInfo.badCRC }
       else if len ≠ s2.strm.total_out % 4294967296 then
         { s2 with err := WTAP_ERR_DECOMPRESS, err_info := some ErrInfo.lengthFieldWrong }
       else s2) := by
    unfold zlib_trailer_verify
    rw [h1]
    dsimp only []
    rw [h2]
    dsimp only []
    rw [h2s]
  have hnocrc : ¬ (crc ≠ s2.strm.adler ∧ s2.dont_check_crc = false) := by
    rw [hdcc2]
    simp
  rw [if_neg hnocrc] at hverify
  by_cases hlen : len = s2.strm.total_out % 4294967296
  · rw [if_neg (by omega)] at hverify
    have hct : zlib_check_trailer s =
        { s2 with compression := Compression.UNKNOWN, fast_seek_cur := none } := by
      unfold zlib_check_trailer zlib_trailer_postlude
      rw [hverify]
    refine ⟨fun _ => ⟨hct, by rw [hct]; exact hferr⟩,
            fun hc => absurd hlen hc, ?_, ?_, rfl⟩
    · rw [hct]
    · rw [hct]
  · rw [if_pos hlen] at hverify
    have hct : zlib_check_trailer s =
        { s2 with err := WTAP_ERR_DECOMPRESS
                , err_info := some ErrInfo.lengthFieldWrong
                , compression := Compression.UNKNOWN
                , fast_seek_cur := none } := by
      unfold zlib_check_trailer zlib_trailer_postlude
      rw [hverify]
    refine ⟨fun hc => absurd hc hlen, fun _ => ⟨?_, ?_⟩, ?_, ?_, rfl⟩
    · rw [hct]
    · rw [hct]
    · rw [hct]
    · rw [hct]

/-- mid-stream reader for the C3 witness: eight trailer bytes buffered,
CRC field 5 mismatching the running checksum 999, length field 2
matching total_out 2, .caz opt-in active. -/
def c3state : Reader :=
  { file_fdopen { data := [], pos := 0 } 4096 with
    compression := Compression.ZLIB
  , dont_check_crc := true
  , inb := { content := [5, 0, 0, 0, 2, 0, 0, 0], next := 0 }
  , strm := { internal := 0, adler := 999, total_out := 2, data_type := 0, msg := "" } }

def c3state2 : Reader :=
  { c3state with inb := { c3state.inb with next := 8 } }

/-- witness for the C3 theorem at a concrete input. -/
theorem caz_trailer_checks_witness :
    (c3state.dont_check_crc = true ∧ (gz_next4 c3state).2 = some 5 ∧
     (gz_next4 (gz_next4 c3state).1).2 = some 2 ∧
     (gz_next4 (gz_next4 c3state).1).1 = c3state2) ∧
    ((2 = c3state2.strm.total_out % 4294967296 →
       zlib_check_trailer c3state =
         { c3state2 with compression := Compression.UNKNOWN, fast_seek_cur := none } ∧
       (zlib_check_trailer c3state).err = c3state.err) ∧
     (2 ≠ c3state2.strm.total_out % 4294967296 →
       (zlib_check_trailer c3state).err = WTAP_ERR_DECOMPRESS ∧
       (zlib_check_trailer c3state).err_info = some ErrInfo.lengthFieldWrong) ∧
     (zlib_check_trailer c3state).compression = Compression.UNKNOWN ∧
     (zlib_check_trailer c3state).fast_seek_cur = none ∧
     ErrInfo.text ErrInfo.lengthFieldWrong = "length field wrong") :=
  ⟨⟨rfl, by decide, by decide, by decide⟩,
   caz_trailer_checks c3state 5 2 c3state2 rfl (by decide) (by decide) (by decide)⟩

def c4pt1 : FastSeekPoint :=
  { out := 10, inp := 3, compression := Compression.UNCOMPRESSED, zbits := 0
  , zwindow := [], zadler := 0, ztotal_out := 0 }

def c4pt2 : FastSeekPoint :=
  { out := 20, inp := 7, compression := Compression.UNCOMPRESSED, zbits := 0
  , zwindow := [], zadler := 0, ztotal_out := 0 }

/-- reader with a concrete two-entry sorted fast-seek table, for the C4
witness. -/
def c4wit : Reader :=
  { file_fdopen { data := [], pos := 0 } 4096 with
    fast_seek := some [c4pt1, c4pt2] }

/-- witness for the C4 theorem at a concrete input: both entries of the
table lie past position 5, so the search reports no usable entry. -/
theorem fast_seek_find_correct_witness :
    c4wit.fast_seek = some [c4pt1, c4pt2] ∧ SortedOut [c4pt1, c4pt2] ∧
    fast_seek_find c4wit 5 = none :=
  ⟨rfl, sortedOut_pair c4pt1 c4pt2 (by decide),
   ((fast_seek_find_correct c4wit 5).2 [c4pt1, c4pt2] rfl
       (sortedOut_pair c4pt1 c4pt2 (by decide))).2.mpr (by decide)⟩

/-- witness for the C5 theorem at a concrete input. -/
theorem fast_seek_append_sorted_witness :
    SortedOut [c4pt1, c4pt2] ∧
    SortedOut (fast_seek_header_list [c4pt1, c4pt2] 9 30 Compression.UNCOMPRESSED) ∧
    SortedOut (zlib_fast_seek_add_list [c4pt1, c4pt2]
      { window := [], pos := 0, have_ := 0 } 0 12 40 1 2) :=
  ⟨sortedOut_pair c4pt1 c4pt2 (by decide),
   ((fast_seek_append_sorted [c4pt1, c4pt2]
       (sortedOut_pair c4pt1 c4pt2 (by decide))).1 9 30 Compression.UNCOMPRESSED).1,
   ((fast_seek_append_sorted [c4pt1, c4pt2]
       (sortedOut_pair c4pt1 c4pt2 (by decide))).2
     { window := [], pos := 0, have_ := 0 } 0 12 40 1 2).1⟩

/-- C10: file_eof is true exactly when the internal eof flag is set and
both internal buffers are drained; it stays false while undelivered
bytes remain in either buffer; and buf_read sets the eof flag exactly
when it was already set or the fd delivered no bytes (the raw offset
did not advance). -/
theorem file_eof_characterization :
    (∀ s : Reader, file_eof s = true ↔
       s.eof = true ∧ s.inb.avail = 0 ∧ s.out.avail = 0) ∧
    (∀ s : Reader, (s.out.avail ≠ 0 ∨ s.inb.avail ≠ 0) → file_eof s = false) ∧
    (∀ (s : Reader) (buf : Buf), (buf_read s buf).1.eof = true ↔
       (s.eof = true ∨ (buf_read s buf).1.raw_pos = s.raw_pos)) := by
  refine ⟨?_, ?_, ?_⟩
  · intro s
    simp [file_eof, Bool.and_eq_true, beq_iff_eq, and_assoc]
  · intro s h
    cases hb : file_eof s with
    | false => rfl
    | true =>
      simp only [file_eof, Bool.and_eq_true, beq_iff_eq] at hb
      rcases h with h | h
      · exact absurd hb.2 h
      · exact absurd hb.1.2 h
  · intro s buf
    unfold buf_read
    dsimp only []
    generalize ws_read s.fd
      (if s.size - bytes_in_buffer buf = 0 then s.size
       else s.size - bytes_in_buffer buf) = p
    obtain ⟨bytes, fd1⟩ := p
    dsimp only []
    by_cases hl : bytes.length = 0
    · rw [if_pos hl, hl]
      simp
    · rw [if_neg hl]
      constructor
      · intro h
        exact Or.inl h
      · intro h
        rcases h with h | h
        · exact h
        · exfalso
          omega

/-- reader with a byte still buffered for delivery, for the C10
witness. -/
def c10wit : Reader :=
  { file_fdopen { data := [], pos := 0 } 4096 with
    eof := true
  , out := { content := [9], next := 0 } }

/-- witness for the C10 theorem at a concrete input: a buffered byte
keeps file_eof false even though the fd is exhausted. -/
theorem file_eof_characterization_witness :
    (c10wit.out.avail ≠ 0 ∨ c10wit.inb.avail ≠ 0) ∧ file_eof c10wit = false :=
  ⟨Or.inl (by decide), file_eof_characterization.2.1 c10wit (Or.inl (by decide))⟩

/-- the SEEK_CUR-style delta file_seek normalizes its offset to before
running its strategy chain (the SEEK_END arm first skips to the end of
the stream and is not covered by this normalization). -/
def seek_delta (s : Reader) (offset : Int) (whence : Whence) : Int :=
  match whence with
  | Whence.SEEK_SET => offset - s.pos
  | Whence.SEEK_CUR => offset + (if s.seek_pending then s.skip else 0)
  | Whence.SEEK_END => offset

/-- C6: a file_seek whose normalised signed delta lies within
[-offset_in_buffer(out), +out.avail) is satisfied inside the output
buffer: only the output cursor and pos move by the delta, and the fd,
raw offset, eof and error state, input buffer, decoder state and
fast-seek index are untouched. -/
theorem file_seek_in_buffer_frame (be : ZlibBackend) (fuel : Nat) (s : Reader)
    (offset : Int) (whence : Whence)
    (hw : whence ≠ Whence.SEEK_END)
    (hlo : -(offset_in_buffer s.out : Int) ≤ seek_delta s offset whence)
    (hhi : seek_delta s offset whence < (s.out.avail : Int)) :
    ∃ s1, file_seek be fuel s offset whence =
        some (s1, s.pos + seek_delta s offset whence) ∧
      s1.fd = s.fd ∧ s1.raw_pos = s.raw_pos ∧ s1.eof = s.eof ∧
      s1.err = s.err ∧ s1.err_info = s.err_info ∧ s1.inb = s.inb ∧
      s1.strm = s.strm ∧ s1.compression = s.compression ∧
      s1.fast_seek = s.fast_seek ∧ s1.fast_seek_cur = s.fast_seek_cur ∧
      s1.out.content = s.out.content ∧
      (s1.out.next : Int) = (s.out.next : Int) + seek_delta s offset whence ∧
      s1.pos = s.pos + seek_delta s offset whence := by
  have hred : file_seek be fuel s offset whence =
      file_seek_core be s (seek_delta s offset whence) := by
    cases whence with
    | SEEK_SET => rfl
    | SEEK_CUR => rfl
    | SEEK_END => exact absurd rfl hw
  rw [hred]
  generalize hd : seek_delta s offset whence = d at hlo hhi ⊢
  unfold file_seek_core
  dsimp only []
  by_cases h0 : d = 0
  · rw [if_pos h0]
    subst h0
    exact ⟨{ s with seek_pending := false },
      by rw [Int.add_zero], rfl, rfl, rfl, rfl, rfl, rfl, rfl, rfl, rfl, rfl,
      rfl, by rw [Int.add_zero], by rw [Int.add_zero]⟩
  · rw [if_neg h0]
    have hlo2 : -((s.out.next : Nat) : Int) ≤ d := hlo
    by_cases hneg : d < 0
    · rw [if_pos hneg,
        if_pos (show -d ≤ ((offset_in_buffer s.out : Nat) : Int) from
          show -d ≤ ((s.out.next : Nat) : Int) by omega)]
      dsimp only []
      have hle : (-d).toNat ≤ s.out.next := by omega
      have hp : s.pos - (((-d).toNat : Nat) : Int) = s.pos + d := by omega
      rw [hp]
      refine ⟨_, rfl, rfl, rfl, rfl, rfl, rfl, rfl, rfl, rfl, rfl, rfl, rfl,
        ?_, rfl⟩
      rw [Nat.cast_sub hle]
      omega
    · rw [if_neg hneg, if_pos hhi]
      dsimp only []
      exact ⟨_, rfl, rfl, rfl, rfl, rfl, rfl, rfl, rfl, rfl, rfl, rfl, rfl,
        by push_cast; omega, rfl⟩

/-- reader with three buffered output bytes, cursor past the first, for
the C6 witness (a backward in-buffer seek by one). -/
def c6wit : Reader :=
  { file_fdopen { data := [], pos := 0 } 4096 with
    out := { content := [1, 2, 3], next := 1 }, pos := 1 }

/-- witness for the C6 theorem at a concrete input. -/
theorem file_seek_in_buffer_frame_witness :
    (Whence.SEEK_SET ≠ Whence.SEEK_END ∧
     -(offset_in_buffer c6wit.out : Int) ≤ seek_delta c6wit 0 Whence.SEEK_SET ∧
     seek_delta c6wit 0 Whence.SEEK_SET < (c6wit.out.avail : Int)) ∧
    ∃ s1, file_seek zlibStub 1 c6wit 0 Whence.SEEK_SET =
        some (s1, c6wit.pos + seek_delta c6wit 0 Whence.SEEK_SET) ∧
      s1.fd = c6wit.fd ∧ s1.raw_pos = c6wit.raw_pos ∧ s1.eof = c6wit.eof ∧
      s1.err = c6wit.err ∧ s1.err_info = c6wit.err_info ∧ s1.inb = c6wit.inb ∧
      s1.strm = c6wit.strm ∧ s1.compression = c6wit.compression ∧
      s1.fast_seek = c6wit.fast_seek ∧ s1.fast_seek_cur = c6wit.fast_seek_cur ∧
      s1.out.content = c6wit.out.content ∧
      (s1.out.next : Int) = (c6wit.out.next : Int) +
        seek_delta c6wit 0 Whence.SEEK_SET ∧
      s1.pos = c6wit.pos + seek_delta c6wit 0 Whence.SEEK_SET :=
  ⟨⟨by decide, by decide, by decide⟩,
   file_seek_in_buffer_frame zlibStub 1 c6wit 0 Whence.SEEK_SET
     (by decide) (by decide) (by decide)⟩

/-- C8: for every input whose first two bytes are the gzip magic 1F 8B
and whose third byte (the CM field) is not 8, the first read on a fresh
reader fails, returning -1 with no data and leaving the error code at
WTAP_ERR_DECOMPRESS and the error information at "unknown compression
method". -/
theorem gz_head_bad_method (be : ZlibBackend) (fuel : Nat) (cm : Nat)
    (rest : List Nat) (size : Nat)
    (hcm : cm ≠ 8) (hsz : 3 ≤ size) (hfuel : 1 ≤ fuel) :
    (file_read be fuel
        (file_fdopen { data := 31 :: 139 :: cm :: rest, pos := 0 } size) 1).map
        (fun r => (r.2.1, r.2.2, r.1.err, r.1.err_info)) =
      some (-1, [], WTAP_ERR_DECOMPRESS,
            some ErrInfo.unknownCompressionMethod) ∧
    ErrInfo.text ErrInfo.unknownCompressionMethod =
      "unknown compression method" := by
  obtain ⟨k, rfl⟩ : ∃ k, size = k + 3 := ⟨size - 3, by omega⟩
  obtain ⟨f, rfl⟩ : ∃ f, fuel = f + 1 := ⟨fuel - 1, by omega⟩
  have hcmI : ¬ ((cm : Int) = -1) := by omega
  refine ⟨?_, rfl⟩
  simp [file_read, file_read_loop, fill_out_buffer, gz_head, gz_head_main,
    gz_header_rest, gz_next1, GZ_GETC, in_consume1, fill_in_buffer, buf_read,
    ws_read, bytes_in_buffer, buf_reset, Buf.avail, file_fdopen, short_read,
    List.getD, hcm, hcmI]

/-- witness for the C8 theorem at a concrete input. -/
theorem gz_head_bad_method_witness :
    ((7 : Nat) ≠ 8 ∧ (3 : Nat) ≤ 3 ∧ (1 : Nat) ≤ 1) ∧
    ((file_read zlibStub 1
        (file_fdopen { data := [31, 139, 7], pos := 0 } 3) 1).map
        (fun r => (r.2.1, r.2.2, r.1.err, r.1.err_info)) =
      some (-1, [], WTAP_ERR_DECOMPRESS,
            some ErrInfo.unknownCompressionMethod) ∧
     ErrInfo.text ErrInfo.unknownCompressionMethod =
       "unknown compression method") :=
  ⟨⟨by decide, by decide, by decide⟩,
   gz_head_bad_method zlibStub 1 7 [] 3 (by decide) (by decide) (by decide)⟩

lemma file_seek_skip_tell (s : Reader) (off : Int) (s1 : Reader) (r : Int)
    (hpend : s.seek_pending = false)
    (h : file_seek_skip s off = some (s1, r)) :
    file_tell s1 = r := by
  unfold file_seek_skip at h
  dsimp only [] at h
  generalize hn : (if (s.out.avail : Int) > off then off.toNat else s.out.avail) = n at h
  by_cases hz : off - (n : Int) = 0
  · rw [if_neg (not_not_intro hz)] at h
    simp only [Option.some.injEq, Prod.mk.injEq] at h
    obtain ⟨h1, h2⟩ := h
    rw [← h1]
    simp only [file_tell, hpend]
    simp
    omega
  · rw [if_pos hz] at h
    simp only [Option.some.injEq, Prod.mk.injEq] at h
    obtain ⟨h1, h2⟩ := h
    rw [← h1]
    simp only [file_tell]
    simp
    omega

lemma file_seek_fast_finish_tell (s : Reader) (target off2 : Int) (s1 : Reader)
    (r : Int) (hpend : s.seek_pending = false)
    (h : file_seek_fast_finish s target off2 = some (s1, r)) :
    file_tell s1 = r := by
  unfold file_seek_fast_finish at h
  dsimp only [] at h
  by_cases hz : target - off2 = 0
  · rw [if_neg (not_not_intro hz)] at h
    simp only [Option.some.injEq, Prod.mk.injEq] at h
    obtain ⟨h1, h2⟩ := h
    rw [← h1]
    simp only [file_tell, hpend]
    simp
    omega
  · rw [if_pos hz] at h
    simp only [Option.some.injEq, Prod.mk.injEq] at h
    obtain ⟨h1, h2⟩ := h
    rw [← h1]
    simp only [file_tell]
    simp
    omega

set_option maxHeartbeats 2000000 in
lemma file_seek_fast_tell (be : ZlibBackend) (s : Reader) (offset : Int)
    (here : FastSeekPoint) (s1 : Reader) (r : Int) (hr : 0 ≤ r)
    (h : file_seek_fast be s offset here = some (s1, r)) :
    file_tell s1 = r := by
  unfold file_seek_fast at h
  lift_lets at h
  extract_lets target offOff2 off off2 srcFd sRst sZ at h
  split at h
  · extract_lets strmR strmZ at h
    split at h
    · extract_lets pg at h
      split at h
      · simp only [Option.some.injEq, Prod.mk.injEq] at h
        obtain ⟨h1, h2⟩ := h
        omega
      · refine file_seek_fast_finish_tell _ _ _ _ _ ?_ h
        exact (GZ_GETC_frame _).2.1.trans rfl
    · refine file_seek_fast_finish_tell _ _ _ _ _ ?_ h
      exact rfl
  · split at h
    · refine file_seek_fast_finish_tell _ _ _ _ _ ?_ h
      exact rfl
    · refine file_seek_fast_finish_tell _ _ _ _ _ ?_ h
      exact rfl

lemma file_seek_tail_tell (s : Reader) (offset : Int) (s1 : Reader) (r : Int)
    (hpend : s.seek_pending = false) (hr : 0 ≤ r)
    (h : file_seek_tail s offset = some (s1, r)) :
    file_tell s1 = r := by
  unfold file_seek_tail at h
  dsimp only [] at h
  split at h
  · simp only [Option.some.injEq, Prod.mk.injEq] at h
    obtain ⟨h1, h2⟩ := h
    rw [← h1]
    simp only [file_tell]
    simp
    omega
  · split at h
    · split at h
      · simp only [Option.some.injEq, Prod.mk.injEq] at h
        obtain ⟨h1, h2⟩ := h
        omega
      · exact file_seek_skip_tell _ _ _ _ rfl h
    · exact file_seek_skip_tell _ _ _ _ hpend h

lemma file_seek_core_tell (be : ZlibBackend) (s : Reader) (offset : Int)
    (s1 : Reader) (r : Int) (hr : 0 ≤ r)
    (h : file_seek_core be s offset = some (s1, r)) :
    file_tell s1 = r := by
  unfold file_seek_core at h
  dsimp only [] at h
  split at h
  · simp only [Option.some.injEq, Prod.mk.injEq] at h
    obtain ⟨h1, h2⟩ := h
    rw [← h1]
    simp only [file_tell]
    simp
    omega
  · by_cases hneg : offset < 0
    · rw [if_pos hneg] at h
      by_cases hc1 : -offset ≤ ((offset_in_buffer s.out : Nat) : Int)
      · rw [if_pos hc1] at h
        dsimp only [] at h
        simp only [Option.some.injEq, Prod.mk.injEq] at h
        obtain ⟨h1, h2⟩ := h
        rw [← h1]
        simp only [file_tell]
        simp
        omega
      · rw [if_neg hc1] at h
        dsimp only [] at h
        rcases hff : fast_seek_find { s with seek_pending := false }
            (s.pos + offset) with _ | here
        · rw [hff] at h
          exact file_seek_tail_tell _ _ _ _ rfl hr h
        · rw [hff] at h
          dsimp only [] at h
          split at h
          · exact file_seek_fast_tell be _ _ _ _ _ hr h
          · exact file_seek_tail_tell _ _ _ _ rfl hr h
    · rw [if_neg hneg] at h
      by_cases hc2 : offset < ((Buf.avail s.out : Nat) : Int)
      · rw [if_pos hc2] at h
        dsimp only [] at h
        simp only [Option.some.injEq, Prod.mk.injEq] at h
        obtain ⟨h1, h2⟩ := h
        rw [← h1]
        simp only [file_tell]
        simp
        omega
      · rw [if_neg hc2] at h
        dsimp only [] at h
        rcases hff : fast_seek_find { s with seek_pending := false }
            (s.pos + offset) with _ | here
        · rw [hff] at h
          exact file_seek_tail_tell _ _ _ _ rfl hr h
        · rw [hff] at h
          dsimp only [] at h
          split at h
          · exact file_seek_fast_tell be _ _ _ _ _ hr h
          · exact file_seek_tail_tell _ _ _ _ rfl hr h

/-- C7 (amended): whenever file_seek returns a non-negative value r,
an immediately following file_tell returns r — except for the
SEEK_END-with-offset-0 case on a reader carrying a nonzero deferred
skip, which returns the skipped-to position while the stale pending
skip still inflates file_tell. -/
theorem file_seek_returns_tell (be : ZlibBackend) (fuel : Nat) (s : Reader)
    (offset : Int) (whence : Whence) (s1 : Reader) (r : Int)
    (h : file_seek be fuel s offset whence = some (s1, r))
    (hr : 0 ≤ r)
    (hexc : ¬(whence = Whence.SEEK_END ∧ offset = 0 ∧ s.seek_pending = true ∧
              s.skip ≠ 0)) :
    file_tell s1 = r := by
  cases whence with
  | SEEK_SET => exact file_seek_core_tell be s _ s1 r hr h
  | SEEK_CUR => exact file_seek_core_tell be s _ s1 r hr h
  | SEEK_END =>
    unfold file_seek at h
    rcases hsk : gz_skip be fuel s G_MAXINT64 with _ | p
    · rw [hsk] at h
      simp at h
    · obtain ⟨sq, rq⟩ := p
      rw [hsk] at h
      dsimp only [] at h
      by_cases hm1 : rq = -1
      · rw [if_pos hm1] at h
        simp only [Option.some.injEq, Prod.mk.injEq] at h
        obtain ⟨h1, h2⟩ := h
        omega
      · rw [if_neg hm1] at h
        by_cases h0 : offset = 0
        · rw [if_pos h0] at h
          simp only [Option.some.injEq, Prod.mk.injEq] at h
          obtain ⟨h1, h2⟩ := h
          have hstep := gz_skip_step be fuel s G_MAXINT64 sq rq
            (by decide) hsk
          have hpend : sq.seek_pending = s.seek_pending := hstep.2.1.1
          have hskp : sq.skip = s.skip := hstep.2.1.2.1
          rw [← h1]
          unfold file_tell
          cases hsp : s.seek_pending with
          | false =>
            rw [hpend, hsp]
            simp
            omega
          | true =>
            have hz : s.skip = 0 := by
              by_contra hnz
              exact hexc ⟨rfl, h0, hsp, hnz⟩
            rw [hpend, hsp, hskp, hz]
            simp
            omega
        · rw [if_neg h0] at h
          exact file_seek_core_tell be sq offset s1 r hr h

/-- fresh reader over a two-byte uncompressed file, for the C7
counterexample and witness. -/
def c7pre : Reader := file_fdopen { data := [65, 66], pos := 0 } 4096

/-- counterexample to the original C7 claim: a forward seek past the
end of the data leaves a deferred skip of 5; a following SEEK_END seek
with offset 0 returns 2 (the end of the stream) while file_tell then
reports 7. -/
theorem file_seek_returns_tell_cex :
    ((file_seek zlibStub 9 c7pre 5 Whence.SEEK_CUR).bind (fun q =>
       (file_seek zlibStub 9 q.1 0 Whence.SEEK_END).map (fun q2 =>
         (q2.2, file_tell q2.1)))) = some (2, 7) ∧
    (0 : Int) ≤ 2 ∧ (7 : Int) ≠ 2 := by
  refine ⟨rfl, by decide, by decide⟩

/-- witness for the amended C7 theorem at a concrete input: an
in-buffer SEEK_SET on the fresh reader. -/
theorem file_seek_returns_tell_witness :
    (file_seek zlibStub 1 c7pre 0 Whence.SEEK_SET =
       some ({ c7pre with seek_pending := false }, 0) ∧
     (0 : Int) ≤ 0 ∧
     ¬(Whence.SEEK_SET = Whence.SEEK_END ∧ (0 : Int) = 0 ∧
       c7pre.seek_pending = true ∧ c7pre.skip ≠ 0)) ∧
    file_tell { c7pre with seek_pending := false } = 0 :=
  ⟨⟨by decide, by decide, by decide⟩,
   file_seek_returns_tell zlibStub 1 c7pre 0 Whence.SEEK_SET
     { c7pre with seek_pending := false } 0 (by decide) (by decide) (by decide)⟩

/-- the file_peekc loop never moves the caller-visible position, and a
non-negative result is the byte at the output cursor of the final
state. -/
lemma file_peekc_loop_step (be : ZlibBackend) (fuel : Nat) :
    ∀ s s1 b, file_peekc_loop be fuel s = some (s1, b) →
      Frame s s1 ∧ (0 ≤ b →
        s1.out.avail ≠ 0 ∧ b = (s1.out.content.getD s1.out.next 0 : Int)) := by
  induction fuel with
  | zero =>
    intro s s1 b h
    simp [file_peekc_loop] at h
  | succ fuel ih =>
    intro s s1 b h
    unfold file_peekc_loop at h
    by_cases hav : s.out.avail ≠ 0
    · rw [if_pos hav] at h
      simp only [Option.some.injEq, Prod.mk.injEq] at h
      obtain ⟨h1, h2⟩ := h
      subst h1
      exact ⟨frame_refl s, fun _ => ⟨hav, h2.symm⟩⟩
    · rw [if_neg hav] at h
      by_cases herr : s.err ≠ 0
      · rw [if_pos herr] at h
        simp only [Option.some.injEq, Prod.mk.injEq] at h
        obtain ⟨h1, h2⟩ := h
        subst h1
        exact ⟨frame_refl s, fun hb => absurd hb (by omega)⟩
      · rw [if_neg herr] at h
        by_cases heof : s.eof = true ∧ s.inb.avail = 0
        · rw [if_pos heof] at h
          simp only [Option.some.injEq, Prod.mk.injEq] at h
          obtain ⟨h1, h2⟩ := h
          subst h1
          exact ⟨frame_refl s, fun hb => absurd hb (by omega)⟩
        · rw [if_neg heof] at h
          rcases hf : fill_out_buffer be fuel s with _ | p
          · rw [hf] at h
            simp at h
          · obtain ⟨sm, r⟩ := p
            rw [hf] at h
            dsimp only [] at h
            have hstep := fill_out_buffer_step be fuel s sm r hf
            by_cases hm1 : r = -1
            · rw [if_pos hm1] at h
              simp only [Option.some.injEq, Prod.mk.injEq] at h
              obtain ⟨h1, h2⟩ := h
              subst h1
              exact ⟨hstep.1, fun hb => absurd hb (by omega)⟩
            · rw [if_neg hm1] at h
              obtain ⟨hfr, hfacts⟩ := ih sm s1 b h
              exact ⟨frame_trans hstep.1 hfr, hfacts⟩

/-- file_getc on a clean state with buffered output: deliver the byte
at the cursor and advance the caller-visible position by one. -/
lemma file_getc_avail (be : ZlibBackend) (fuel : Nat) (s : Reader)
    (herr : s.err = 0) (hav : s.out.avail ≠ 0) :
    file_getc be fuel s =
      some ({ s with out := { s.out with next := s.out.next + 1 }
                   , pos := s.pos + 1 },
            (s.out.content.getD s.out.next 0 : Int)) ∧
    file_tell { s with out := { s.out with next := s.out.next + 1 }
                     , pos := s.pos + 1 } = file_tell s + 1 := by
  constructor
  · unfold file_getc
    rw [if_neg (by simp [herr]), if_pos hav]
  · cases hsp : s.seek_pending
    · simp [file_tell, hsp]
    · simp [file_tell, hsp]
      omega

/-- C9 (amended): whenever file_peekc returns a byte b ≥ 0 (and any
pending skip is of non-negative length), the peek leaves the
caller-visible position unchanged, and — provided the peek did not
latch a deferred error into the reader — an immediately following
file_getc returns the same byte and advances file_tell by exactly
one. -/
theorem peek_getc_agree (be : ZlibBackend) (fuel fuel2 : Nat) (s s1 : Reader)
    (b : Int) (h : file_peekc be fuel s = some (s1, b)) (hb : 0 ≤ b)
    (hskip : s.seek_pending = true → 0 ≤ s.skip) :
    file_tell s1 = file_tell s ∧
    (s1.err = 0 → ∃ s2, file_getc be fuel2 s1 = some (s2, b) ∧
      file_tell s2 = file_tell s1 + 1) := by
  unfold file_peekc at h
  by_cases herr : s.err ≠ 0
  · rw [if_pos herr] at h
    simp only [Option.some.injEq, Prod.mk.injEq] at h
    obtain ⟨h1, h2⟩ := h
    exact absurd hb (by omega)
  · rw [if_neg herr] at h
    by_cases hav : s.out.avail ≠ 0
    · rw [if_pos hav] at h
      simp only [Option.some.injEq, Prod.mk.injEq] at h
      obtain ⟨h1, h2⟩ := h
      subst h1
      refine ⟨rfl, fun herr1 => ?_⟩
      obtain ⟨hg, ht⟩ := file_getc_avail be fuel2 s herr1 hav
      exact ⟨_, by rw [hg, ← h2], ht⟩
    · rw [if_neg hav] at h
      by_cases hsp : s.seek_pending
      · rw [if_pos hsp] at h
        rcases hsk : gz_skip be fuel { s with seek_pending := false } s.skip
          with _ | p
        · rw [hsk] at h
          simp at h
        · obtain ⟨sq, rq⟩ := p
          rw [hsk] at h
          dsimp only [] at h
          have hstep := gz_skip_step be fuel { s with seek_pending := false }
            s.skip sq rq (hskip hsp) hsk
          by_cases hm1 : rq = -1
          · rw [if_pos hm1] at h
            simp only [Option.some.injEq, Prod.mk.injEq] at h
            obtain ⟨h1, h2⟩ := h
            exact absurd hb (by omega)
          · rw [if_neg hm1] at h
            obtain ⟨hfr, hfacts⟩ := file_peekc_loop_step be fuel sq s1 b h
            obtain ⟨havail1, hbyte⟩ := hfacts hb
            have hr0 : rq = 0 := by
              rcases hstep.1 with h' | h'
              · exact h'
              · exact absurd h' hm1
            obtain ⟨hle, hdisj⟩ := hstep.2.2.2 hr0
            rcases hdisj with hfull | hstop
            · have hpend1 : s1.seek_pending = false := by
                rw [hfr.2.1, hstep.2.1.1]
              have hpos1 : s1.pos = s.pos + s.skip := by
                rw [hfr.1, hfull]
              constructor
              · unfold file_tell
                rw [hpos1, hpend1, hsp]
                simp
              · intro herr1
                obtain ⟨hg, ht⟩ := file_getc_avail be fuel2 s1 herr1 havail1
                exact ⟨_, by rw [hg, hbyte], ht⟩
            · rcases fuel with _ | f
              · simp [file_peekc_loop] at h
              · unfold file_peekc_loop at h
                rw [if_neg (by simp [hstop.1]), if_neg (by simp [hstop.2.2.2]),
                  if_pos ⟨hstop.2.1, hstop.2.2.1⟩] at h
                simp only [Option.some.injEq, Prod.mk.injEq] at h
                obtain ⟨h1, h2⟩ := h
                exact absurd hb (by omega)
      · rw [if_neg hsp] at h
        obtain ⟨hfr, hfacts⟩ := file_peekc_loop_step be fuel s s1 b h
        obtain ⟨havail1, hbyte⟩ := hfacts hb
        constructor
        · unfold file_tell
          rw [hfr.1, hfr.2.1, hfr.2.2.1]
        · intro herr1
          obtain ⟨hg, ht⟩ := file_getc_avail be fuel2 s1 herr1 havail1
          exact ⟨_, by rw [hg, hbyte], ht⟩

/-- concrete zlib backend for the C9 counterexample: inflate consumes
one input byte, produces the single byte 104 and reports end of the
deflate stream; the running checksum computes to 999. -/
def be1 : ZlibBackend :=
  { inflate := fun strm _ _ =>
      { ret := Z_STREAM_END, consumed := 1, produced := [104]
      , strm := { strm with total_out := strm.total_out + 1 } }
  , crc32 := fun _ _ => 999
  , inflateReset := fun strm => strm
  , inflatePrime := fun strm _ _ => strm
  , inflateSetDictionary := fun strm _ => strm }

/-- mid-stream ZLIB reader for the C9 counterexample: one compressed
byte followed by a trailer whose CRC field 5 will mismatch the
checksum 999, latching a deferred error while the decoded byte 104 is
still delivered to a peek. -/
def c9state : Reader :=
  { file_fdopen { data := [], pos := 0 } 4 with
    compression := Compression.ZLIB
  , is_compressed := true
  , inb := { content := [171, 5, 0, 0, 0, 1, 0, 0, 0], next := 0 }
  , strm := { internal := 0, adler := 7, total_out := 0, data_type := 0
            , msg := "" } }

/-- counterexample to the original C9 claim: file_peekc returns the
byte 104 (latching the deferred trailer-CRC error), and the
immediately following file_getc returns -1 instead of 104. -/
theorem peek_getc_agree_cex :
    ((file_peekc be1 3 c9state).bind (fun p =>
        (file_getc be1 3 p.1).map (fun q => (p.2, q.2)))) = some (104, -1) ∧
    (0 : Int) ≤ 104 ∧ (104 : Int) ≠ -1 :=
  ⟨rfl, by decide, by decide⟩

/-- reader with one buffered byte, for the C9 witness. -/
def c9wit : Reader :=
  { file_fdopen { data := [], pos := 0 } 4096 with
    out := { content := [65], next := 0 } }

/-- witness for the amended C9 theorem at a concrete input. -/
theorem peek_getc_agree_witness :
    (file_peekc zlibStub 1 c9wit = some (c9wit, 65) ∧ (0 : Int) ≤ 65 ∧
     (c9wit.seek_pending = true → (0 : Int) ≤ c9wit.skip)) ∧
    (file_tell c9wit = file_tell c9wit ∧
     (c9wit.err = 0 → ∃ s2, file_getc zlibStub 1 c9wit = some (s2, 65) ∧
        file_tell s2 = file_tell c9wit + 1)) :=
  ⟨⟨by decide, by decide, fun _ => by decide⟩,
   peek_getc_agree zlibStub 1 1 c9wit c9wit 65 (by decide) (by decide)
     (fun _ => by decide)⟩

end FileWrappers
